import Mathlib

/-!
# Verification of the ModernFinance server cache and provider-fallback core

A shallow embedding of the repository's caching service (`cache.service.ts`),
its key codec, tag index and statistics tracker, together with the
provider-fallback orchestrator and synthetic fallback generator
(`llm.service.ts`, `market.service.ts`), and proofs of the specification's
testable properties over that embedding.

Conventions of the embedding:
* JavaScript numbers are modelled as rationals (`ℚ`); counters as `ℕ`.
* Asynchronous methods are modelled as pure state transformers over an
  explicit `CacheState`; the fallibility of each Redis client call is
  injected through a `Faults` record, one flag per primitive, so that a
  single call can be made to fail exactly where the try/catch in the source
  would observe it.
* A value stored in Redis is identified with the JSON value its serialized
  string decodes to (`JSON.parse ∘ JSON.stringify = id` on the JSON
  fragment), so the store maps keys to `JVal`s; `JSON.stringify` throwing on
  a non-serializable value is modelled by the `serializeFails` fault flag.
-/

namespace MF

/-- JSON values, the data that can round-trip through `JSON.stringify` /
`JSON.parse`.  Numbers are modelled as rationals. -/
inductive JVal where
  | jnull : JVal
  | jbool : Bool → JVal
  | jnum : ℚ → JVal
  | jstr : String → JVal
  | jarr : List JVal → JVal
  | jobj : List (String × JVal) → JVal

/-- `cached !== null` test used by `getOrSet` and the JS truthiness of
`null`: only the JSON value `null` is `null`. -/
def JVal.isNull : JVal → Bool
  | .jnull => true
  | _ => false

/-- JavaScript truthiness of a JSON value (`if (cached)`): `null`, `false`,
`0` and `""` are falsy, everything else truthy. -/
def JVal.jsTruthy : JVal → Bool
  | .jnull => false
  | .jbool b => b
  | .jnum q => decide (q ≠ 0)
  | .jstr s => decide (s ≠ "")
  | .jarr _ => true
  | .jobj _ => true

/-- Deterministic rendering of a number, standing in for JavaScript's
number-to-string conversion.  Injective on `ℚ`, which is all the proofs
rely on. -/
def qToString (q : ℚ) : String :=
  if q.den = 1 then toString q.num else toString q.num ++ "/" ++ toString q.den

mutual

/-- `JSON.stringify` on JSON values (string escaping omitted: the keys and
strings exercised here are plain ASCII without quotes or backslashes).
Object entries are serialized in their list (insertion) order, exactly as
`JSON.stringify` serializes a JavaScript object's properties. -/
def JVal.stringify : JVal → String
  | .jnull => "null"
  | .jbool b => cond b "true" "false"
  | .jnum q => qToString q
  | .jstr s => "\x22" ++ s ++ "\x22"
  | .jarr xs => "[" ++ JVal.stringifyList xs ++ "]"
  | .jobj es => "\x7b" ++ JVal.stringifyEntries es ++ "\x7d"

/-- Comma-separated serialization of an array's elements. -/
def JVal.stringifyList : List JVal → String
  | [] => ""
  | [x] => x.stringify
  | x :: y :: rest => x.stringify ++ "," ++ JVal.stringifyList (y :: rest)

/-- Comma-separated serialization of an object's entries, in list order. -/
def JVal.stringifyEntries : List (String × JVal) → String
  | [] => ""
  | [(k, v)] => "\x22" ++ k ++ "\x22:" ++ v.stringify
  | (k, v) :: e :: rest =>
      "\x22" ++ k ++ "\x22:" ++ v.stringify ++ "," ++ JVal.stringifyEntries (e :: rest)

end

/-- Code-unit comparison of two characters, as JavaScript's default string
comparison compares code units. -/
def charList_le : List Char → List Char → Bool
  | [], _ => true
  | _ :: _, [] => false
  | a :: as, b :: bs =>
    if a = b then charList_le as bs else decide (a.toNat < b.toNat)

theorem char_toNat_injective (a b : Char) (h : a.toNat = b.toNat) : a = b := by
  apply Char.ext
  apply UInt32.val_injective
  exact Fin.ext h

theorem charList_le_total (x y : List Char) :
    charList_le x y = true ∨ charList_le y x = true := by
  induction x generalizing y with
  | nil => left; rfl
  | cons a as ih =>
    cases y with
    | nil => right; rfl
    | cons b bs =>
      by_cases hab : a = b
      · subst hab
        simpa [charList_le] using ih bs
      · have hba : b ≠ a := fun h => hab h.symm
        have hne : a.toNat ≠ b.toNat := fun h => hab (char_toNat_injective a b h)
        rcases Nat.lt_or_ge a.toNat b.toNat with h | h
        · left; simp [charList_le, hab, h]
        · right
          have : b.toNat < a.toNat := lt_of_le_of_ne h (fun hh => hne hh.symm)
          simp [charList_le, hba, this]

theorem charList_le_antisymm (x y : List Char)
    (h1 : charList_le x y = true) (h2 : charList_le y x = true) : x = y := by
  induction x generalizing y with
  | nil =>
    cases y with
    | nil => rfl
    | cons b bs => simp [charList_le] at h2
  | cons a as ih =>
    cases y with
    | nil => simp [charList_le] at h1
    | cons b bs =>
      by_cases hab : a = b
      · subst hab
        simp only [charList_le, if_pos rfl] at h1 h2
        rw [ih bs h1 h2]
      · have hba : b ≠ a := fun h => hab h.symm
        simp [charList_le, hab, hba] at h1 h2
        omega

theorem charList_le_trans (x y z : List Char)
    (h1 : charList_le x y = true) (h2 : charList_le y z = true) :
    charList_le x z = true := by
  induction x generalizing y z with
  | nil => rfl
  | cons a as ih =>
    cases y with
    | nil => simp [charList_le] at h1
    | cons b bs =>
      cases z with
      | nil => simp [charList_le] at h2
      | cons c cs =>
        by_cases hab : a = b <;> by_cases hbc : b = c
        · subst hab; subst hbc
          simp only [charList_le, if_pos rfl] at h1 h2 ⊢
          exact ih bs cs h1 h2
        · subst hab
          simp only [charList_le, if_pos rfl] at h1
          simpa [charList_le, hbc] using h2
        · subst hbc
          simpa [charList_le, hab] using h1
        · have hac : a ≠ c := by
            intro h; subst h
            simp [charList_le, hab, hbc] at h1 h2
            omega
          simp [charList_le, hab, hbc] at h1 h2
          simp [charList_le, hac]
          omega

/-- The ordering `Object.keys(component).sort()` sorts by: JavaScript's
default lexicographic comparison on code units. -/
def jsStrLe (a b : String) : Prop := charList_le a.data b.data = true

instance : DecidableRel jsStrLe := fun a b =>
  inferInstanceAs (Decidable (charList_le a.data b.data = true))

instance : IsTotal String jsStrLe :=
  ⟨fun a b => charList_le_total a.data b.data⟩

instance : IsTrans String jsStrLe :=
  ⟨fun a b c h1 h2 => charList_le_trans a.data b.data c.data h1 h2⟩

instance : IsAntisymm String jsStrLe :=
  ⟨fun a b h1 h2 => by
    apply String.ext
    exact charList_le_antisymm a.data b.data h1 h2⟩

/-- First-match association lookup in an entries list (a JavaScript object
has unique keys, so the lists fed to this are `Nodup` on keys). -/
def findVal : String → List (String × JVal) → Option JVal
  | _, [] => none
  | k, e :: rest => if e.1 = k then some e.2 else findVal k rest

/-- The sorted copy an object component is reduced to before hashing:
`Object.keys(component).sort().reduce((obj, key) => obj[key] = component[key])`.
Note only the top-level keys are sorted; nested values are copied as-is. -/
def sortedEntries (es : List (String × JVal)) : List (String × JVal) :=
  ((es.map Prod.fst).insertionSort jsStrLe).map
    (fun k => (k, (findVal k es).getD JVal.jnull))

/-- The `crypto.createHash('md5')` content fingerprint.  The spec makes the
specific algorithm a non-requirement ("any collision-resistant content hash
is acceptable"), so the digest is modelled as an ideal (injective) digest
of the serialized text. -/
def contentDigest (s : String) : String := s

/-- One argument of `CacheService.generateKey`: a string, a number, or a
structured object (`typeof component === 'object'`). -/
inductive KeyPart where
  | ks : String → KeyPart
  | kn : ℚ → KeyPart
  | ko : List (String × JVal) → KeyPart

/-- `CacheService.generateKey(...components)`: scalar parts are stringified
verbatim; an object part is reduced to a fingerprint of its serialization
after sorting its top-level keys; parts are joined with `":"`. -/
def CacheService.generateKey (components : List KeyPart) : String :=
  String.intercalate ":" <| components.map fun c =>
    match c with
    | .ks s => s
    | .kn q => qToString q
    | .ko es => contentDigest (JVal.jobj (sortedEntries es)).stringify

/-! ## The cache store, tag index and statistics tracker -/

/-- The `CacheStats` counter aggregate of `cache.service.ts`. -/
structure Stats where
  hits : Nat
  misses : Nat
  sets : Nat
  deletes : Nat
  errors : Nat
  hitRate : ℚ

/-- The zero counters the service is constructed with (`resetStats` also
restores exactly this record). -/
def Stats.init : Stats :=
  { hits := 0, misses := 0, sets := 0, deletes := 0, errors := 0, hitRate := 0 }

/-- `updateHitRate`: `hitRate = total > 0 ? (hits / total) * 100 : 0` with
`total = hits + misses`.  Note the result is a percentage. -/
def updateHitRate (s : Stats) : Stats :=
  { s with hitRate :=
      if 0 < s.hits + s.misses
      then ((s.hits : ℚ) / ((s.hits : ℚ) + (s.misses : ℚ))) * 100
      else 0 }

/-- The Redis backend contents visible to the service: the main key space
(key ↦ serialized value and remaining TTL) and the tag key space
(`tag:`-prefixed key ↦ set members and remaining TTL).  The source only
ever touches tag keys through the `tag:` prefix, so the two key spaces are
kept as separate tables. -/
structure Backend where
  store : List (String × JVal × Nat)
  tags : List (String × List String × Nat)

/-- The state of one `CacheService` instance: connection flag, the backend
it talks to, and its process-lifetime statistics. -/
structure CacheState where
  connected : Bool
  backend : Backend
  stats : Stats

/-- Per-call fault injection: one flag per Redis client primitive (plus one
for `JSON.stringify` throwing on a non-serializable value).  A raised flag
makes that primitive reject, which lands in the `catch` of the calling
method. -/
structure Faults where
  getFails : Bool
  setexFails : Bool
  pipelineFails : Bool
  delFails : Bool
  tagDelFails : Bool
  smembersFails : Bool
  existsFails : Bool
  ttlFails : Bool
  serializeFails : Bool

/-- The healthy backend: no primitive fails. -/
def noFaults : Faults :=
  { getFails := false, setexFails := false, pipelineFails := false,
    delFails := false, tagDelFails := false, smembersFails := false,
    existsFails := false, ttlFails := false, serializeFails := false }

/-- `CacheOptions { ttl?, tags? }`. -/
structure CacheOptions where
  ttl : Option Nat
  tags : Option (List String)

/-- `cacheTTL` from `redis.config.ts`. -/
def cacheTTL : Nat × Nat × Nat := (3600, 300, 86400)

/-- `cacheTTL.default`, the fallback when no (truthy) ttl option is given. -/
def cacheTTLdefault : Nat := 3600

/-- `options.ttl || cacheTTL.default` — JavaScript `||`, so a ttl of `0` is
falsy and also falls back to the default. -/
def CacheOptions.effectiveTtl (o : CacheOptions) : Nat :=
  match o.ttl with
  | some t => if t = 0 then cacheTTLdefault else t
  | none => cacheTTLdefault

/-- `GET key` against the modelled key space. -/
def storeLookup : List (String × JVal × Nat) → String → Option (JVal × Nat)
  | [], _ => none
  | e :: rest, k => if e.1 = k then some e.2 else storeLookup rest k

/-- `DEL` of a single key. -/
def storeRemove (k : String) (store : List (String × JVal × Nat)) :
    List (String × JVal × Nat) :=
  match store with
  | [] => []
  | e :: rest => if e.1 = k then storeRemove k rest else e :: storeRemove k rest

/-- `SETEX key ttl value` rebinds the key with the given TTL. -/
def storeSet (k : String) (v : JVal) (t : Nat) (store : List (String × JVal × Nat)) :
    List (String × JVal × Nat) :=
  (k, v, t) :: storeRemove k store

/-- `DEL key...`: removes the keys one after another and returns how many
of them existed (Redis counts only keys actually removed). -/
def redisDel (keys : List String) (store : List (String × JVal × Nat)) :
    Nat × List (String × JVal × Nat) :=
  match keys with
  | [] => (0, store)
  | k :: rest =>
    let hit := if (storeLookup store k).isSome then 1 else 0
    let (n, store') := redisDel rest (storeRemove k store)
    (hit + n, store')

/-- `GET`-like lookup in the tag key space. -/
def tagLookup : List (String × List String × Nat) → String → Option (List String × Nat)
  | [], _ => none
  | e :: rest, tk => if e.1 = tk then some e.2 else tagLookup rest tk

/-- `SADD tagKey key`: adds the member to the set (creating it with no TTL
decay modelled), keeping the set free of duplicates as a Redis set is. -/
def tagSadd (tk k : String) (tags : List (String × List String × Nat)) :
    List (String × List String × Nat) :=
  match tagLookup tags tk with
  | none => tags ++ [(tk, [k], 0)]
  | some (mem, t) =>
    tags.map fun e =>
      if e.1 = tk then (tk, if k ∈ mem then mem else mem ++ [k], t) else e

/-- `EXPIRE tagKey ttl`: overwrites the key's TTL (plain `EXPIRE`, no
`GT`/`NX` option — an existing longer expiry is replaced, not kept). -/
def tagExpire (tk : String) (t : Nat) (tags : List (String × List String × Nat)) :
    List (String × List String × Nat) :=
  tags.map fun e => if e.1 = tk then (e.1, e.2.1, t) else e

/-- `SMEMBERS tagKey` (empty for an absent key). -/
def tagSmembers (tags : List (String × List String × Nat)) (tk : String) : List String :=
  match tagLookup tags tk with
  | none => []
  | some (mem, _) => mem

/-- `DEL tagKey...` over the tag key space. -/
def tagsDel (tks : List String) (tags : List (String × List String × Nat)) :
    List (String × List String × Nat) :=
  match tags with
  | [] => []
  | e :: rest => if e.1 ∈ tks then tagsDel tks rest else e :: tagsDel tks rest

/-- The tag pipeline of `set`: for each tag, `SADD tag:tag key` then
`EXPIRE tag:tag ttl`. -/
def applyTags (tgs : List String) (key : String) (t : Nat)
    (tags : List (String × List String × Nat)) : List (String × List String × Nat) :=
  match tgs with
  | [] => tags
  | tg :: rest => applyTags rest key t (tagExpire ("tag:" ++ tg) t (tagSadd ("tag:" ++ tg) key tags))

/-- `this.stats.errors++` in a `catch` block. -/
def CacheState.addError (st : CacheState) : CacheState :=
  { st with stats := { st.stats with errors := st.stats.errors + 1 } }

/-- `CacheService.get(key)`: `null` without touching the stats when
disconnected; on a backend error counts an error and returns `null`; on a
true miss counts a miss; on a hit counts a hit and returns the decoded
value (which may itself be the JSON value `null`). -/
def CacheService.get (f : Faults) (st : CacheState) (key : String) : JVal × CacheState :=
  if st.connected = false then (JVal.jnull, st)
  else if f.getFails then
    (JVal.jnull, st.addError)
  else
    match storeLookup st.backend.store key with
    | none =>
      (JVal.jnull,
        { st with stats := updateHitRate { st.stats with misses := st.stats.misses + 1 } })
    | some (v, _) =>
      (v, { st with stats := updateHitRate { st.stats with hits := st.stats.hits + 1 } })

/-- `CacheService.set(key, value, options)`: `false` without side effects
when disconnected; serializes the value, `SETEX`es it with the effective
TTL, then runs the tag pipeline when tags were supplied; returns `true` and
counts a set on success, `false` counting an error when any step rejects. -/
def CacheService.set (f : Faults) (st : CacheState) (key : String) (v : JVal)
    (o : CacheOptions) : Bool × CacheState :=
  if st.connected = false then (false, st)
  else
    let t := o.effectiveTtl
    if f.serializeFails then (false, st.addError)
    else if f.setexFails then (false, st.addError)
    else
      let b1 : Backend := { st.backend with store := storeSet key v t st.backend.store }
      match o.tags with
      | some tgs =>
        if tgs.isEmpty then
          (true, { st with backend := b1, stats := { st.stats with sets := st.stats.sets + 1 } })
        else if f.pipelineFails then
          (false, CacheState.addError { st with backend := b1 })
        else
          (true, { st with
                   backend := { b1 with tags := applyTags tgs key t b1.tags },
                   stats := { st.stats with sets := st.stats.sets + 1 } })
      | none =>
        (true, { st with backend := b1, stats := { st.stats with sets := st.stats.sets + 1 } })

/-- `CacheService.delete(key)`: `false` without side effects when
disconnected; on success always counts a delete (whether or not the key
existed) and returns whether a key was removed; counts an error and
returns `false` when `DEL` rejects. -/
def CacheService.delete (f : Faults) (st : CacheState) (key : String) : Bool × CacheState :=
  if st.connected = false then (false, st)
  else if f.delFails then (false, st.addError)
  else
    let present := (storeLookup st.backend.store key).isSome
    (present,
      { st with
        backend := { st.backend with store := storeRemove key st.backend.store },
        stats := { st.stats with deletes := st.stats.deletes + 1 } })

/-- `CacheService.deleteMany(keys)`: `0` when disconnected or given no
keys; otherwise a single `DEL keys...`, adding the number removed to the
delete counter. -/
def CacheService.deleteMany (f : Faults) (st : CacheState) (keys : List String) :
    Nat × CacheState :=
  if st.connected = false then (0, st)
  else if keys.isEmpty then (0, st)
  else if f.delFails then (0, st.addError)
  else
    let (n, store') := redisDel keys st.backend.store
    (n, { st with
          backend := { st.backend with store := store' },
          stats := { st.stats with deletes := st.stats.deletes + n } })

/-- The `new Set()` union of the members of all queried TagSets, built by
inserting one member at a time (`keys.forEach(key => allKeys.add(key))`),
in iteration order. -/
def setInsert (acc : List String) (k : String) : List String :=
  if k ∈ acc then acc else acc ++ [k]

/-- Union of the TagSets of the given tags, deduplicated in insertion
order. -/
def collectKeys (tags : List String) (table : List (String × List String × Nat)) :
    List String :=
  tags.foldl (fun acc tg => (tagSmembers table ("tag:" ++ tg)).foldl setInsert acc) []

/-- `CacheService.invalidateByTags(tags)`: `0` when disconnected or given
no tags; unions the members of the TagSets (`SMEMBERS` per tag), deletes
the found keys through `deleteMany`, then deletes the TagSet keys
themselves, returning the number of keys removed; any rejecting primitive
lands in the `catch`, which counts an error and returns `0`. -/
def CacheService.invalidateByTags (f : Faults) (st : CacheState) (tags : List String) :
    Nat × CacheState :=
  if st.connected = false then (0, st)
  else if tags.isEmpty then (0, st)
  else if f.smembersFails then (0, st.addError)
  else
    let allKeys := collectKeys tags st.backend.tags
    if allKeys.isEmpty then (0, st)
    else
      let (deleted, st1) := CacheService.deleteMany f st allKeys
      if f.tagDelFails then (0, st1.addError)
      else
        (deleted,
          { st1 with backend :=
              { st1.backend with
                tags := tagsDel (tags.map (fun tg => "tag:" ++ tg)) st1.backend.tags } })

/-- `CacheService.exists(key)`: `false` when disconnected or when `EXISTS`
rejects (counting an error), otherwise whether the key is present. -/
def CacheService.existsKey (f : Faults) (st : CacheState) (key : String) :
    Bool × CacheState :=
  if st.connected = false then (false, st)
  else if f.existsFails then (false, st.addError)
  else ((storeLookup st.backend.store key).isSome, st)

/-- `CacheService.ttl(key)`: `-1` when disconnected or when `TTL` rejects
(counting an error); otherwise the passthrough Redis answer (the remaining
TTL, or `-2` for an absent key). -/
def CacheService.ttl (f : Faults) (st : CacheState) (key : String) : Int × CacheState :=
  if st.connected = false then (-1, st)
  else if f.ttlFails then (-1, st.addError)
  else
    match storeLookup st.backend.store key with
    | none => (-2, st)
    | some (_, t) => ((t : Int), st)

/-- `CacheService.getStats()` (a copy of the counters). -/
def CacheService.getStats (st : CacheState) : Stats := st.stats

/-- `CacheService.resetStats()`. -/
def CacheService.resetStats (st : CacheState) : CacheState := { st with stats := Stats.init }

/-- `CacheService.getOrSet(key, factory, options)`: reads the key; a
non-`null` answer is returned as the hit without invoking the factory; on
`null` the factory is invoked (its result is the `computeVal` argument),
the result is written through `set` — whose outcome is discarded — and the
fresh value is returned.  The third component instruments the number of
factory invocations. -/
def CacheService.getOrSet (f : Faults) (st : CacheState) (key : String) (computeVal : JVal)
    (o : CacheOptions) : JVal × CacheState × Nat :=
  let g := CacheService.get f st key
  if g.1.isNull then
    let s := CacheService.set f g.2 key computeVal o
    (computeVal, s.2, 1)
  else (g.1, g.2, 0)

/-! ## Provider fallback orchestrator, LLM service and synthetic fallback -/

/-- A named provider for one capability.  `none` means the provider is not
configured (its client is undefined, or its API key absent) and is skipped
without being invoked; `some (.error ())` means it is invoked and fails
(network error, timeout, malformed payload); `some (.ok r)` means it is
invoked and succeeds with `r`. -/
abbrev Provider (R : Type) : Type := String × Option (Except Unit R)

/-- The generic shape of the fallback chains: call the providers in order,
return the first success together with the names of the providers actually
invoked; when the list is exhausted, return the fallback value.  Total, so
nothing is ever raised to the caller. -/
def runChain {R : Type} : List (Provider R) → R → R × List String
  | [], fb => (fb, [])
  | (_, none) :: rest, fb => runChain rest fb
  | (name, some (.error _)) :: rest, fb =>
    let (r, tr) := runChain rest fb
    (r, name :: tr)
  | (name, some (.ok r)) :: _, _ => (r, [name])

/-- The names of the providers of a chain prefix that would be invoked
(the configured ones). -/
def invokedNames {R : Type} (ps : List (Provider R)) : List String :=
  ps.filterMap fun p => match p.2 with
    | none => none
    | some _ => some p.1

/-- A provider succeeds when it is configured and returns a success. -/
def providerSucceeds {R : Type} (p : Provider R) : Prop :=
  ∃ r, p.2 = some (Except.ok r)

/-- `AgentType` from `server.models.ts`. -/
inductive AgentType where
  | optimist | skeptical | technical | fundamental | risk | consensus | neutralArbitrator

/-- The `'Buy' | 'Hold' | 'Sell'` recommendation union. -/
inductive Recommendation where
  | buy | hold | sell

/-- The `'Bullish' | 'Bearish' | 'Neutral'` bias union of an `LLMResponse`,
and the `AgentBias` enum it is mapped onto. -/
inductive AgentBias where
  | bullish | bearish | neutral

/-- `mapBias`: lower-cases the bias string and maps `bullish`/`bearish` to
the corresponding enum case, everything else to neutral.  On the typed
union the map is the identity. -/
def mapBias : AgentBias → AgentBias
  | .bullish => .bullish
  | .bearish => .bearish
  | .neutral => .neutral

/-- `FinancialContext` (the optional `companyName`/`industry` strings play
no role in any modelled computation and are omitted). -/
structure FinancialContext where
  symbol : String
  currentPrice : ℚ
  marketCap : ℚ
  peRatio : ℚ
  revenueGrowth : ℚ
  profitMargin : ℚ
  debtToEquity : ℚ
  roe : ℚ
  beta : ℚ
  fundamentals : List (String × ℚ)

/-- `LLMResponse`. -/
structure LLMResponse where
  recommendation : Recommendation
  targetPrice : ℚ
  reasoning : String
  confidence : ℚ
  keyPoints : List String
  bias : AgentBias

/-- `AgentPerspective`. -/
structure AgentPerspective where
  agentType : AgentType
  recommendation : Recommendation
  targetPrice : ℚ
  reasoning : String
  confidence : ℚ
  keyPoints : List String
  bias : AgentBias

/-- The randomness consumed by `generateIntelligentMock`: `r1` is the
`Math.random()` draw of the target-price multiplier, `r2` the one of the
confidence, and `pick i` the index drawn for the `i`-th generic filler
point. -/
structure Rand where
  r1 : ℚ
  r2 : ℚ
  pick : Nat → Nat

/-- The fixed filler pools of `getGenericPoint`. -/
def bullishPoints : List String :=
  ["Market position remains strong with competitive advantages",
   "Management execution has been consistent",
   "Industry trends favor continued growth",
   "Capital allocation strategy is shareholder-friendly",
   "Innovation pipeline supports long-term value creation"]

/-- The bearish filler pool. -/
def bearishPoints : List String :=
  ["Competitive pressures may impact margins",
   "Market saturation could limit growth",
   "Regulatory risks require monitoring",
   "Capital requirements may pressure returns",
   "Execution challenges could impact guidance"]

/-- The neutral filler pool. -/
def neutralPoints : List String :=
  ["Valuation appears in line with peers",
   "Business model shows resilience",
   "Market dynamics are evolving",
   "Strategic initiatives are in progress",
   "Performance metrics are stabilizing"]

/-- `getGenericPoint(agentType, score)`: picks from the bullish pool for a
score of 7 or more, the bearish pool for 3 or less, the neutral pool
otherwise; `r` is the random index (`Math.floor(Math.random() * len)`,
modelled modulo the pool length), with the `||` literal as the (dead)
fallback for an out-of-range index. -/
def getGenericPoint (_agentType : AgentType) (score : Int) (r : Nat) : String :=
  if 7 ≤ score then
    (bullishPoints.getD (r % bullishPoints.length) "Positive outlook based on fundamentals")
  else if score ≤ 3 then
    (bearishPoints.getD (r % bearishPoints.length) "Concerns about current market conditions")
  else
    (neutralPoints.getD (r % neutralPoints.length) "Mixed signals require careful monitoring")

/-- The `while (keyPoints.length < 5)` padding loop: appends one generic
point per iteration until five points are reached. -/
def padPoints (pick : Nat → Nat) (agentType : AgentType) (score : Int)
    (pts : List String) : List String :=
  if _h : pts.length < 5 then
    padPoints pick agentType score (pts ++ [getGenericPoint agentType score (pick pts.length)])
  else pts
termination_by 5 - pts.length
decreasing_by simp; omega

/-- The metric-conditional key points pushed before padding, in source
order. -/
def conditionalPoints (c : FinancialContext) : List String :=
  (if 0 < c.peRatio ∧ c.peRatio < 20 then
    ["Attractive P/E ratio of " ++ qToString c.peRatio ++ " suggests undervaluation"]
   else if 30 < c.peRatio then
    ["High P/E ratio of " ++ qToString c.peRatio ++ " indicates premium valuation"]
   else []) ++
  (if (1:ℚ)/10 < c.revenueGrowth then
    ["Strong revenue growth of " ++ qToString (c.revenueGrowth * 100) ++ "% year-over-year"]
   else if c.revenueGrowth < 0 then
    ["Declining revenue trend with " ++ qToString (c.revenueGrowth * 100) ++ "% contraction"]
   else []) ++
  (if (15:ℚ)/100 < c.profitMargin then
    ["Healthy profit margin of " ++ qToString (c.profitMargin * 100) ++ "% demonstrates efficiency"]
   else []) ++
  (if c.debtToEquity < (1:ℚ)/2 then
    ["Conservative debt level with D/E ratio of " ++ qToString c.debtToEquity]
   else if (3:ℚ)/2 < c.debtToEquity then
    ["Elevated debt levels with D/E ratio of " ++ qToString c.debtToEquity ++ " pose risk"]
   else []) ++
  (if (15:ℚ)/100 < c.roe then
    ["Strong ROE of " ++ qToString (c.roe * 100) ++ "% indicates effective capital deployment"]
   else [])

/-- The threshold-bucket score of `generateIntelligentMock`: +2/+1/0 per
metric against the fixed cutoffs, then the agent-disposition offset
(optimist +2, skeptical −2, risk −1). -/
def mockScore (agentType : AgentType) (c : FinancialContext) : Int :=
  (if 0 < c.peRatio ∧ c.peRatio < 20 then 2
   else if 0 < c.peRatio ∧ c.peRatio < 30 then 1 else 0) +
  (if (15:ℚ)/100 < c.revenueGrowth then 2
   else if (5:ℚ)/100 < c.revenueGrowth then 1 else 0) +
  (if (1:ℚ)/5 < c.profitMargin then 2
   else if (1:ℚ)/10 < c.profitMargin then 1 else 0) +
  (if c.debtToEquity < (1:ℚ)/2 then 2
   else if c.debtToEquity < 1 then 1 else 0) +
  (if (1:ℚ)/5 < c.roe then 2
   else if (1:ℚ)/10 < c.roe then 1 else 0) +
  (match agentType with
   | .optimist => 2
   | .skeptical => -2
   | .risk => -1
   | _ => 0)

/-- `generateIntelligentMock(agentType, context)`: the Synthetic Fallback
Generator.  Converts the metrics to a score, maps the score through the
three bands into recommendation/bias/target-multiplier, assembles the
metric-conditional key points padded to five, and fills in the templated
reasoning and a 65–90% confidence. -/
def generateIntelligentMock (agentType : AgentType) (c : FinancialContext)
    (rnd : Rand) : LLMResponse :=
  let score := mockScore agentType c
  let rec_ : Recommendation := if 7 ≤ score then .buy else if 4 ≤ score then .hold else .sell
  let bias : AgentBias := if 7 ≤ score then .bullish else if 4 ≤ score then .neutral else .bearish
  let targetMultiplier : ℚ :=
    if 7 ≤ score then (115:ℚ)/100 + rnd.r1 * ((15:ℚ)/100)
    else if 4 ≤ score then (95:ℚ)/100 + rnd.r1 * ((15:ℚ)/100)
    else (7:ℚ)/10 + rnd.r1 * ((1:ℚ)/5)
  let keyPoints := padPoints rnd.pick agentType score (conditionalPoints c)
  { recommendation := rec_
    targetPrice := c.currentPrice * targetMultiplier
    reasoning :=
      "Based on comprehensive analysis of " ++ c.symbol ++
      "'s fundamentals, the stock appears " ++
      (match rec_ with
       | .buy => "undervalued with strong growth prospects"
       | .sell => "overvalued with concerning risks"
       | .hold => "fairly valued with mixed signals") ++ ". " ++
      (match agentType with
       | .risk => "Risk factors require careful consideration."
       | .optimist => "Multiple positive catalysts support upside potential."
       | _ => "Current metrics suggest a balanced risk-reward profile.")
    confidence := (65:ℚ)/100 + rnd.r2 * ((1:ℚ)/4)
    keyPoints := keyPoints.take 5
    bias := bias }

/-- `LLMService.generateAgentPerspective`: tries OpenAI, then Anthropic,
then Google (each only when its client is configured, each failure logged
and swallowed); when no provider produced a response, falls back to
`generateIntelligentMock`; finally converts the response to an
`AgentPerspective` through `mapBias`.  The second component records the
providers invoked. -/
def generateAgentPerspective (agentType : AgentType) (c : FinancialContext) (rnd : Rand)
    (openai anthropic google : Option (Except Unit LLMResponse)) :
    AgentPerspective × List String :=
  let step1 : Option LLMResponse × List String :=
    match openai with
    | none => (none, [])
    | some (.ok r) => (some r, ["OpenAI"])
    | some (.error _) => (none, ["OpenAI"])
  let step2 : Option LLMResponse × List String :=
    match step1.1 with
    | some r => (some r, step1.2)
    | none =>
      match anthropic with
      | none => (none, step1.2)
      | some (.ok r) => (some r, step1.2 ++ ["Anthropic"])
      | some (.error _) => (none, step1.2 ++ ["Anthropic"])
  let step3 : Option LLMResponse × List String :=
    match step2.1 with
    | some r => (some r, step2.2)
    | none =>
      match google with
      | none => (none, step2.2)
      | some (.ok r) => (some r, step2.2 ++ ["Google"])
      | some (.error _) => (none, step2.2 ++ ["Google"])
  let response : LLMResponse :=
    match step3.1 with
    | some r => r
    | none => generateIntelligentMock agentType c rnd
  ({ agentType := agentType
     recommendation := response.recommendation
     targetPrice := response.targetPrice
     reasoning := response.reasoning
     confidence := response.confidence
     keyPoints := response.keyPoints
     bias := mapBias response.bias }, step3.2)

/-! ## Market service: the fundamentals fallback chain -/

/-- A fundamentals record, `Record<string, number>`. -/
def Fund : Type := List (String × ℚ)

/-- `generateMockFundamentals(symbol)`: the deterministic per-symbol mock
tables (`switch (symbol.toUpperCase())`). -/
def generateMockFundamentals (symbol : String) : Fund :=
  let u := symbol.toUpper
  if u = "AAPL" then
    [("Market Cap", 3000000000000), ("P/E Ratio", (325:ℚ)/10), ("EPS", (605:ℚ)/100),
     ("Revenue", 383285000000), ("Revenue Growth", (8:ℚ)/100), ("Gross Margin", (434:ℚ)/1000),
     ("Operating Margin", (302:ℚ)/1000), ("Net Margin", (253:ℚ)/1000), ("ROE", (1478:ℚ)/1000),
     ("ROA", (289:ℚ)/1000), ("Debt to Equity", (195:ℚ)/100), ("Current Ratio", (94:ℚ)/100),
     ("Quick Ratio", (91:ℚ)/100), ("Free Cash Flow", 99800000000),
     ("Dividend Yield", (44:ℚ)/10000), ("Beta", (125:ℚ)/100), ("52 Week High", (19962:ℚ)/100),
     ("52 Week Low", (16408:ℚ)/100), ("Price", (1965:ℚ)/10), ("Volume", 53423100)]
  else if u = "GOOGL" ∨ u = "GOOG" then
    [("Market Cap", 2000000000000), ("P/E Ratio", (278:ℚ)/10), ("EPS", (58:ℚ)/10),
     ("Revenue", 307394000000), ("Revenue Growth", (13:ℚ)/100), ("Gross Margin", (573:ℚ)/1000),
     ("Operating Margin", (278:ℚ)/1000), ("Net Margin", (213:ℚ)/1000), ("ROE", (295:ℚ)/1000),
     ("ROA", (188:ℚ)/1000), ("Debt to Equity", (12:ℚ)/100), ("Current Ratio", (235:ℚ)/100),
     ("Quick Ratio", (235:ℚ)/100), ("Free Cash Flow", 69495000000), ("Dividend Yield", 0),
     ("Beta", (106:ℚ)/100), ("52 Week High", (17949:ℚ)/100), ("52 Week Low", (12021:ℚ)/100),
     ("Price", (1613:ℚ)/10), ("Volume", 22154800)]
  else if u = "TSLA" then
    [("Market Cap", 800000000000), ("P/E Ratio", (752:ℚ)/10), ("EPS", (34:ℚ)/10),
     ("Revenue", 96773000000), ("Revenue Growth", (19:ℚ)/100), ("Gross Margin", (273:ℚ)/1000),
     ("Operating Margin", (97:ℚ)/1000), ("Net Margin", (103:ℚ)/1000), ("ROE", (241:ℚ)/1000),
     ("ROA", (89:ℚ)/1000), ("Debt to Equity", (28:ℚ)/100), ("Current Ratio", (169:ℚ)/100),
     ("Quick Ratio", (108:ℚ)/100), ("Free Cash Flow", 7500000000), ("Dividend Yield", 0),
     ("Beta", (202:ℚ)/100), ("52 Week High", (29929:ℚ)/100), ("52 Week Low", (15237:ℚ)/100),
     ("Price", (2558:ℚ)/10), ("Volume", 97456300)]
  else
    [("Market Cap", 50000000000), ("P/E Ratio", 25), ("EPS", (42:ℚ)/10),
     ("Revenue", 10000000000), ("Revenue Growth", (15:ℚ)/100), ("Gross Margin", (45:ℚ)/100),
     ("Operating Margin", (1:ℚ)/5), ("Net Margin", (15:ℚ)/100), ("ROE", (22:ℚ)/100),
     ("ROA", (12:ℚ)/100), ("Debt to Equity", (1:ℚ)/2), ("Current Ratio", (18:ℚ)/10),
     ("Quick Ratio", (15:ℚ)/10), ("Free Cash Flow", 1500000000), ("Dividend Yield", (15:ℚ)/1000),
     ("Beta", (13:ℚ)/10), ("52 Week High", 120), ("52 Week Low", 80), ("Price", 105),
     ("Volume", 5000000)]

/-- A fundamentals value embedded as the JSON object it serializes to. -/
def fundToJVal (fd : Fund) : JVal :=
  JVal.jobj (fd.map fun e => (e.1, JVal.jnum e.2))

/-- Decoding a cached fundamentals JSON object back to a record (the
inverse of `fundToJVal` on its image). -/
def jvalToFund : JVal → Fund
  | .jobj es => es.filterMap fun e =>
      match e.2 with
      | .jnum q => some (e.1, q)
      | _ => none
  | _ => []

/-- The `!fundamentals || Object.keys(fundamentals).length === 0` guard:
no record yet, or an empty one. -/
def fundMissing : Option Fund → Bool
  | none => true
  | some fd => fd.isEmpty

/-- `MarketService.getFundamentals(symbol)`: cache-first; on a miss tries
Alpha Vantage (only when its API key is configured, `hasKey`), falls back
to Yahoo Finance when that yielded nothing (error or empty record), and
resorts to `generateMockFundamentals` when both yielded nothing; caches
and returns the result.  `av`/`ya` are the outcomes the two provider calls
would produce.  The cache round-trip (`JSON.stringify` at the call site,
the service's own stringify, and the `JSON.parse` pair on read) is
modelled as the identity on the JSON embedding of the record.  The source
passes `300` where `set` expects an options object, so the ttl option is
absent and `set` falls back to its default TTL — hence the empty options
here.  The third component records the providers invoked. -/
def getFundamentals (f : Faults) (st : CacheState) (hasKey : Bool)
    (av ya : Except Unit Fund) (symbol : String) : Fund × CacheState × List String :=
  let cacheKey := "fundamentals:" ++ symbol
  let g := CacheService.get f st cacheKey
  if g.1.jsTruthy then (jvalToFund g.1, g.2, [])
  else
    let fund1 : Option Fund × List String :=
      if hasKey then
        (match av with
         | .ok fd => some fd
         | .error _ => none, ["alphaVantage"])
      else (none, [])
    let fund2 : Option Fund × List String :=
      if fundMissing fund1.1 then
        (match ya with
         | .ok fd => some fd
         | .error _ => fund1.1, fund1.2 ++ ["yahooFinance"])
      else fund1
    let result : Fund :=
      if fundMissing fund2.1 then generateMockFundamentals symbol
      else fund2.1.getD []
    let s := CacheService.set f g.2 cacheKey (fundToJVal result) ⟨none, none⟩
    (result, s.2, fund2.2)

/-! ## Definitions used only by the statements of the claims -/

/-- A sequence of cache reads: each read is the fault pattern of that call
plus the key read. -/
def runGets : List (Faults × String) → CacheState → CacheState
  | [], st => st
  | g :: rest, st => runGets rest (CacheService.get g.1 st g.2).2

/-- The hit-rate bookkeeping invariant the service maintains: the stored
`hitRate` is the percentage `hits / (hits + misses) * 100`, and `0` when no
counted read has happened. -/
def statsWF (s : Stats) : Prop :=
  s.hitRate =
    if 0 < s.hits + s.misses
    then ((s.hits : ℚ) / ((s.hits : ℚ) + (s.misses : ℚ))) * 100
    else 0

/-- Exactly one of three counters is incremented, the other two unchanged. -/
def IncExactlyOneOf3 (a a' b b' c c' : Nat) : Prop :=
  (a' = a + 1 ∧ b' = b ∧ c' = c) ∨ (a' = a ∧ b' = b + 1 ∧ c' = c) ∨
  (a' = a ∧ b' = b ∧ c' = c + 1)

/-- Exactly one of two counters is incremented, the other unchanged. -/
def IncExactlyOneOf2 (a a' b b' : Nat) : Prop :=
  (a' = a + 1 ∧ b' = b) ∨ (a' = a ∧ b' = b + 1)

/-- Ordering of object entries by key, used by the spec-side normalizer. -/
def entryLe (a b : String × JVal) : Prop := jsStrLe a.1 b.1

instance : DecidableRel entryLe := fun a b =>
  inferInstanceAs (Decidable (jsStrLe a.1 b.1))

mutual

/-- Modelled from the spec: the normal form of a JSON value under
"deep-equal regardless of property order" — every object's entry list,
at every depth, sorted by key.  This is a specification-side definition
(the claim's notion of deep equality), not a translation of the source. -/
def JVal.deepSort : JVal → JVal
  | .jnull => .jnull
  | .jbool b => .jbool b
  | .jnum q => .jnum q
  | .jstr s => .jstr s
  | .jarr xs => .jarr (JVal.deepSortList xs)
  | .jobj es => .jobj ((JVal.deepSortEntries es).insertionSort entryLe)

/-- Pointwise normalization of an array's elements. -/
def JVal.deepSortList : List JVal → List JVal
  | [] => []
  | x :: rest => x.deepSort :: JVal.deepSortList rest

/-- Pointwise normalization of an object's entry values. -/
def JVal.deepSortEntries : List (String × JVal) → List (String × JVal)
  | [] => []
  | (k, v) :: rest => (k, v.deepSort) :: JVal.deepSortEntries rest

end

/-- Modelled from the spec: two structured values are deep-equal regardless
of property order when their normal forms coincide. -/
def DeepEqUpToOrder (a b : JVal) : Prop := a.deepSort = b.deepSort

/-- Two `generateKey` components that are equal up to a reordering of
top-level object properties: equal scalars, or object components whose
entry lists are permutations of each other (with the original's keys
unique, as a JavaScript object's keys are). -/
inductive KeyPartTopEquiv : KeyPart → KeyPart → Prop where
  | ks (s : String) : KeyPartTopEquiv (.ks s) (.ks s)
  | kn (q : ℚ) : KeyPartTopEquiv (.kn q) (.kn q)
  | ko (es1 es2 : List (String × JVal)) (hp : es1.Perm es2)
      (hnd : (es1.map Prod.fst).Nodup) : KeyPartTopEquiv (.ko es1) (.ko es2)

/-! ## Theorems -/

/-- The padding loop stops only once at least five points are present. -/
theorem padPoints_length (pick : Nat → Nat) (agentType : AgentType) (score : Int)
    (pts : List String) : 5 ≤ (padPoints pick agentType score pts).length := by
  by_cases h : pts.length < 5
  · rw [padPoints, dif_pos h]
    exact padPoints_length pick agentType score _
  · rw [padPoints, dif_neg h]
    omega
termination_by 5 - pts.length
decreasing_by simp; omega

/-- C1: `getOrSet` invokes its compute function exactly 0 times on a cache
hit, returning the cached value; on a miss (including a degraded-backend
or errored read, both of which surface as `null`) it invokes the compute
function exactly once and returns the freshly computed value — whatever
the outcome of the subsequent `set` (the fault pattern `f`, which governs
whether the `set` fails, is universally quantified and the returned value
does not depend on it). -/
theorem c1_getOrSet_compute_discipline :
    (∀ (f : Faults) (st : CacheState) (key : String) (cv : JVal) (o : CacheOptions),
      (CacheService.get f st key).1.isNull = false →
      CacheService.getOrSet f st key cv o
        = ((CacheService.get f st key).1, (CacheService.get f st key).2, 0))
    ∧ (∀ (f : Faults) (st : CacheState) (key : String) (cv : JVal) (o : CacheOptions),
      (CacheService.get f st key).1.isNull = true →
      (CacheService.getOrSet f st key cv o).1 = cv
        ∧ (CacheService.getOrSet f st key cv o).2.2 = 1) := by
  constructor
  · intro f st key cv o h
    simp [CacheService.getOrSet, h]
  · intro f st key cv o h
    simp [CacheService.getOrSet, h]

/-- Witness for C1: a concrete hit (key present, healthy backend) is
returned as cached with zero compute invocations, and a concrete miss
(empty store) computes exactly once and returns the computed value. -/
theorem c1_witness :
    (CacheService.get noFaults ⟨true, ⟨[("k", JVal.jnum 7, 60)], []⟩, Stats.init⟩ "k").1.isNull
        = false
    ∧ CacheService.getOrSet noFaults ⟨true, ⟨[("k", JVal.jnum 7, 60)], []⟩, Stats.init⟩ "k"
        (JVal.jnum 9) ⟨none, none⟩
      = ((CacheService.get noFaults ⟨true, ⟨[("k", JVal.jnum 7, 60)], []⟩, Stats.init⟩ "k").1,
         (CacheService.get noFaults ⟨true, ⟨[("k", JVal.jnum 7, 60)], []⟩, Stats.init⟩ "k").2, 0)
    ∧ (CacheService.getOrSet noFaults ⟨true, ⟨[], []⟩, Stats.init⟩ "k" (JVal.jnum 9)
        ⟨none, none⟩).1 = JVal.jnum 9 := by
  refine ⟨by rfl, c1_getOrSet_compute_discipline.1 _ _ _ _ _ (by rfl), ?_⟩
  exact (c1_getOrSet_compute_discipline.2 _ _ _ _ _ (by rfl)).1

/-- C7: no cache-store operation ever raises to the caller (each is a
total function into its plain result type), and every failure condition
produces the safe default: a disconnected backend leaves every operation a
no-op returning the default; a rejecting primitive (or, for `set`, a
non-serializable value) makes `get` return `null`, `set` return `false`,
`delete` return `false`, `invalidateByTags` return `0`, `exists` return
`false` and `ttl` return `-1`. -/
theorem c7_failure_defaults :
    (∀ (f : Faults) (b : Backend) (s : Stats) (k : String),
      CacheService.get f ⟨false, b, s⟩ k = (JVal.jnull, ⟨false, b, s⟩))
    ∧ (∀ (f : Faults) (st : CacheState) (k : String),
      (CacheService.get { f with getFails := true } st k).1 = JVal.jnull)
    ∧ (∀ (f : Faults) (b : Backend) (s : Stats) (k : String) (v : JVal) (o : CacheOptions),
      CacheService.set f ⟨false, b, s⟩ k v o = (false, ⟨false, b, s⟩))
    ∧ (∀ (f : Faults) (st : CacheState) (k : String) (v : JVal) (o : CacheOptions),
      (CacheService.set { f with serializeFails := true } st k v o).1 = false)
    ∧ (∀ (f : Faults) (st : CacheState) (k : String) (v : JVal) (o : CacheOptions),
      (CacheService.set { f with setexFails := true } st k v o).1 = false)
    ∧ (∀ (f : Faults) (st : CacheState) (k v0 : String) (v : JVal) (T : Option Nat)
        (ts : List String),
      (CacheService.set { f with pipelineFails := true } st k v ⟨T, some (v0 :: ts)⟩).1 = false)
    ∧ (∀ (f : Faults) (b : Backend) (s : Stats) (k : String),
      CacheService.delete f ⟨false, b, s⟩ k = (false, ⟨false, b, s⟩))
    ∧ (∀ (f : Faults) (st : CacheState) (k : String),
      (CacheService.delete { f with delFails := true } st k).1 = false)
    ∧ (∀ (f : Faults) (b : Backend) (s : Stats) (tags : List String),
      CacheService.invalidateByTags f ⟨false, b, s⟩ tags = (0, ⟨false, b, s⟩))
    ∧ (∀ (f : Faults) (st : CacheState) (tags : List String),
      (CacheService.invalidateByTags { f with smembersFails := true } st tags).1 = 0)
    ∧ (∀ (f : Faults) (st : CacheState) (tags : List String),
      (CacheService.invalidateByTags { f with tagDelFails := true } st tags).1 = 0)
    ∧ (∀ (f : Faults) (b : Backend) (s : Stats) (k : String),
      CacheService.existsKey f ⟨false, b, s⟩ k = (false, ⟨false, b, s⟩))
    ∧ (∀ (f : Faults) (st : CacheState) (k : String),
      (CacheService.existsKey { f with existsFails := true } st k).1 = false)
    ∧ (∀ (f : Faults) (b : Backend) (s : Stats) (k : String),
      CacheService.ttl f ⟨false, b, s⟩ k = (-1, ⟨false, b, s⟩))
    ∧ (∀ (f : Faults) (st : CacheState) (k : String),
      (CacheService.ttl { f with ttlFails := true } st k).1 = -1) := by
  refine ⟨?_, ?_, ?_, ?_, ?_, ?_, ?_, ?_, ?_, ?_, ?_, ?_, ?_, ?_, ?_⟩
  · intro f b s k; rfl
  · intro f st k
    rcases st with ⟨c, b, s⟩
    cases c <;> simp [CacheService.get]
  · intro f b s k v o; rfl
  · intro f st k v o
    rcases st with ⟨c, b, s⟩
    cases c <;> simp [CacheService.set]
  · intro f st k v o
    rcases st with ⟨c, b, s⟩
    cases c <;> cases hse : f.serializeFails <;> simp [CacheService.set, hse]
  · intro f st k v0 v T ts
    rcases st with ⟨c, b, s⟩
    cases c <;> cases hse : f.serializeFails <;> cases hsx : f.setexFails <;>
      simp [CacheService.set, hse, hsx]
  · intro f b s k; rfl
  · intro f st k
    rcases st with ⟨c, b, s⟩
    cases c <;> simp [CacheService.delete]
  · intro f b s tags; rfl
  · intro f st tags
    rcases st with ⟨c, b, s⟩
    cases c <;> cases h : tags.isEmpty <;> simp [CacheService.invalidateByTags, h]
  · intro f st tags
    rcases st with ⟨c, b, s⟩
    cases c
    · rfl
    · cases h : tags.isEmpty
      · cases hsm : f.smembersFails
        · cases hdf : f.delFails <;>
            simp [CacheService.invalidateByTags, h, hsm, hdf, CacheService.deleteMany] <;>
            split <;> rfl
        · simp [CacheService.invalidateByTags, h, hsm]
      · simp [CacheService.invalidateByTags, h]
  · intro f b s k; rfl
  · intro f st k
    rcases st with ⟨c, b, s⟩
    cases c <;> simp [CacheService.existsKey]
  · intro f b s k; rfl
  · intro f st k
    rcases st with ⟨c, b, s⟩
    cases c <;> simp [CacheService.ttl]

/-- C9 counterexample: with the backend disconnected, a `get` increments
none of hits, misses and errors — refuting "each get increments exactly
one of hits/misses/errors ... in every backend condition (including when
the backend is disconnected)". -/
theorem c9_counterexample :
    ¬ ((CacheService.get noFaults ⟨false, ⟨[], []⟩, Stats.init⟩ "k").2.stats.hits
          = Stats.init.hits + 1
       ∨ (CacheService.get noFaults ⟨false, ⟨[], []⟩, Stats.init⟩ "k").2.stats.misses
          = Stats.init.misses + 1
       ∨ (CacheService.get noFaults ⟨false, ⟨[], []⟩, Stats.init⟩ "k").2.stats.errors
          = Stats.init.errors + 1) := by
  intro h
  rcases h with h | h | h <;> exact absurd h (by decide)

/-- C9 (amended): the counter updates are synchronous and exclusive only
when the backend is connected — a connected `get` increments exactly one
of hits/misses/errors, a connected `set` exactly one of sets/errors, a
connected `delete` exactly one of deletes/errors, each leaving the other
counters unchanged; when the backend is disconnected the three operations
return their defaults without touching any counter. -/
theorem c9_stats_updates :
    (∀ (f : Faults) (b : Backend) (s : Stats) (k : String),
      IncExactlyOneOf3 s.hits (CacheService.get f ⟨true, b, s⟩ k).2.stats.hits
        s.misses (CacheService.get f ⟨true, b, s⟩ k).2.stats.misses
        s.errors (CacheService.get f ⟨true, b, s⟩ k).2.stats.errors
      ∧ (CacheService.get f ⟨true, b, s⟩ k).2.stats.sets = s.sets
      ∧ (CacheService.get f ⟨true, b, s⟩ k).2.stats.deletes = s.deletes)
    ∧ (∀ (f : Faults) (b : Backend) (s : Stats) (k : String) (v : JVal) (o : CacheOptions),
      IncExactlyOneOf2 s.sets (CacheService.set f ⟨true, b, s⟩ k v o).2.stats.sets
        s.errors (CacheService.set f ⟨true, b, s⟩ k v o).2.stats.errors
      ∧ (CacheService.set f ⟨true, b, s⟩ k v o).2.stats.hits = s.hits
      ∧ (CacheService.set f ⟨true, b, s⟩ k v o).2.stats.misses = s.misses
      ∧ (CacheService.set f ⟨true, b, s⟩ k v o).2.stats.deletes = s.deletes)
    ∧ (∀ (f : Faults) (b : Backend) (s : Stats) (k : String),
      IncExactlyOneOf2 s.deletes (CacheService.delete f ⟨true, b, s⟩ k).2.stats.deletes
        s.errors (CacheService.delete f ⟨true, b, s⟩ k).2.stats.errors
      ∧ (CacheService.delete f ⟨true, b, s⟩ k).2.stats.hits = s.hits
      ∧ (CacheService.delete f ⟨true, b, s⟩ k).2.stats.misses = s.misses
      ∧ (CacheService.delete f ⟨true, b, s⟩ k).2.stats.sets = s.sets)
    ∧ (∀ (f : Faults) (b : Backend) (s : Stats) (k : String),
      (CacheService.get f ⟨false, b, s⟩ k).2.stats = s)
    ∧ (∀ (f : Faults) (b : Backend) (s : Stats) (k : String) (v : JVal) (o : CacheOptions),
      (CacheService.set f ⟨false, b, s⟩ k v o).2.stats = s)
    ∧ (∀ (f : Faults) (b : Backend) (s : Stats) (k : String),
      (CacheService.delete f ⟨false, b, s⟩ k).2.stats = s) := by
  refine ⟨?_, ?_, ?_, fun f b s k => rfl, fun f b s k v o => rfl, fun f b s k => rfl⟩
  · intro f b s k
    cases hg : f.getFails
    · cases hl : storeLookup b.store k <;>
        simp [CacheService.get, hg, hl, updateHitRate, IncExactlyOneOf3]
    · simp [CacheService.get, hg, CacheState.addError, IncExactlyOneOf3]
  · intro f b s k v o
    cases hse : f.serializeFails
    · cases hsx : f.setexFails
      · rcases ho : o.tags with _ | tgs
        · simp [CacheService.set, hse, hsx, ho, IncExactlyOneOf2]
        · cases he : tgs.isEmpty
          · cases hp : f.pipelineFails <;>
              simp [CacheService.set, hse, hsx, ho, he, hp, CacheState.addError,
                IncExactlyOneOf2]
          · simp [CacheService.set, hse, hsx, ho, he, IncExactlyOneOf2]
      · simp [CacheService.set, hse, hsx, CacheState.addError, IncExactlyOneOf2]
    · simp [CacheService.set, hse, CacheState.addError, IncExactlyOneOf2]
  · intro f b s k
    cases hd : f.delFails <;>
      simp [CacheService.delete, hd, CacheState.addError, IncExactlyOneOf2]

/-- `updateHitRate` establishes the hit-rate invariant by construction. -/
theorem statsWF_updateHitRate (s : Stats) : statsWF (updateHitRate s) := by
  simp [statsWF, updateHitRate]

/-- A single read preserves the hit-rate invariant: the counted branches
recompute the rate, the uncounted branches leave rate and counted counters
alone. -/
theorem statsWF_get (f : Faults) (st : CacheState) (k : String)
    (h : statsWF st.stats) : statsWF (CacheService.get f st k).2.stats := by
  rcases st with ⟨c, b, s⟩
  cases c
  · exact h
  · cases hg : f.getFails
    · cases hl : storeLookup b.store k <;>
        simp [CacheService.get, hg, hl] <;> exact statsWF_updateHitRate _
    · simpa [CacheService.get, hg, CacheState.addError, statsWF] using h

/-- The invariant propagates through any sequence of reads. -/
theorem statsWF_runGets (gs : List (Faults × String)) (st : CacheState)
    (h : statsWF st.stats) : statsWF (runGets gs st).stats := by
  induction gs generalizing st with
  | nil => exact h
  | cons g rest ih => exact ih _ (statsWF_get g.1 st g.2 h)

/-- C4 counterexample: starting from zero counters, one hit followed by
one miss leaves `hitRate = 50`, not the fraction `h/n = 1/2` the claim
asserts. -/
theorem c4_counterexample :
    (runGets [(noFaults, "k"), (noFaults, "zzz")]
        ⟨true, ⟨[("k", JVal.jnum 1, 60)], []⟩, Stats.init⟩).stats.hitRate
      ≠ ((runGets [(noFaults, "k"), (noFaults, "zzz")]
            ⟨true, ⟨[("k", JVal.jnum 1, 60)], []⟩, Stats.init⟩).stats.hits : ℚ)
        / (((runGets [(noFaults, "k"), (noFaults, "zzz")]
              ⟨true, ⟨[("k", JVal.jnum 1, 60)], []⟩, Stats.init⟩).stats.hits : ℚ)
           + ((runGets [(noFaults, "k"), (noFaults, "zzz")]
                ⟨true, ⟨[("k", JVal.jnum 1, 60)], []⟩, Stats.init⟩).stats.misses : ℚ)) := by
  have hne : ¬ ("k" = "zzz") := by decide
  norm_num [runGets, CacheService.get, storeLookup, updateHitRate, noFaults, Stats.init, hne]

/-- C4 (amended): after any sequence of reads starting from zero counters,
`getStats().hitRate` is the percentage `100 * h / n` where `h` is the hit
count and `n = hits + misses` the number of counted reads, and `0` when no
read has been counted (the claim's `h/n` holds only up to the factor
100). -/
theorem c4_hit_rate_percentage (gs : List (Faults × String)) (c : Bool) (b : Backend) :
    (runGets gs ⟨c, b, Stats.init⟩).stats.hitRate
      = if 0 < (runGets gs ⟨c, b, Stats.init⟩).stats.hits
            + (runGets gs ⟨c, b, Stats.init⟩).stats.misses
        then (((runGets gs ⟨c, b, Stats.init⟩).stats.hits : ℚ)
              / (((runGets gs ⟨c, b, Stats.init⟩).stats.hits : ℚ)
                 + ((runGets gs ⟨c, b, Stats.init⟩).stats.misses : ℚ))) * 100
        else 0 :=
  statsWF_runGets gs _ (by simp [statsWF, Stats.init])

/-- C3: the Synthetic Fallback Generator is total — it is a plain function
of (agent type, context, randomness), defined for every rational metric
value (absent context fields are just further values of the quantified
context, there is no partiality to fall into) — and always returns a
well-formed response: a recommendation among Buy/Hold/Sell, a confidence
within [0,1] (in fact within [0.65, 0.9) given a `Math.random()` draw in
[0,1)), and at least five key points. -/
theorem c3_mock_total_wellformed (agentType : AgentType) (c : FinancialContext)
    (rnd : Rand) (h0 : 0 ≤ rnd.r2) (h1 : rnd.r2 < 1) :
    ((generateIntelligentMock agentType c rnd).recommendation = Recommendation.buy
      ∨ (generateIntelligentMock agentType c rnd).recommendation = Recommendation.hold
      ∨ (generateIntelligentMock agentType c rnd).recommendation = Recommendation.sell)
    ∧ 0 ≤ (generateIntelligentMock agentType c rnd).confidence
    ∧ (generateIntelligentMock agentType c rnd).confidence ≤ 1
    ∧ 5 ≤ (generateIntelligentMock agentType c rnd).keyPoints.length := by
  refine ⟨?_, ?_, ?_, ?_⟩
  · simp only [generateIntelligentMock]
    split
    · left; rfl
    · split
      · right; left; rfl
      · right; right; rfl
  · simp only [generateIntelligentMock]
    nlinarith
  · simp only [generateIntelligentMock]
    nlinarith
  · simp only [generateIntelligentMock, List.length_take]
    have := padPoints_length rnd.pick agentType (mockScore agentType c) (conditionalPoints c)
    omega

/-- Witness for C3 at a concrete neutral context and zero randomness. -/
theorem c3_witness :
    (0 : ℚ) ≤ 0 ∧ (0 : ℚ) < 1
    ∧ (((generateIntelligentMock AgentType.fundamental
          ⟨"XYZ", 0, 0, 0, 0, 0, 0, 0, 0, []⟩ ⟨0, 0, fun _ => 0⟩).recommendation
            = Recommendation.buy
        ∨ (generateIntelligentMock AgentType.fundamental
            ⟨"XYZ", 0, 0, 0, 0, 0, 0, 0, 0, []⟩ ⟨0, 0, fun _ => 0⟩).recommendation
            = Recommendation.hold
        ∨ (generateIntelligentMock AgentType.fundamental
            ⟨"XYZ", 0, 0, 0, 0, 0, 0, 0, 0, []⟩ ⟨0, 0, fun _ => 0⟩).recommendation
            = Recommendation.sell)
       ∧ 0 ≤ (generateIntelligentMock AgentType.fundamental
            ⟨"XYZ", 0, 0, 0, 0, 0, 0, 0, 0, []⟩ ⟨0, 0, fun _ => 0⟩).confidence
       ∧ (generateIntelligentMock AgentType.fundamental
            ⟨"XYZ", 0, 0, 0, 0, 0, 0, 0, 0, []⟩ ⟨0, 0, fun _ => 0⟩).confidence ≤ 1
       ∧ 5 ≤ (generateIntelligentMock AgentType.fundamental
            ⟨"XYZ", 0, 0, 0, 0, 0, 0, 0, 0, []⟩ ⟨0, 0, fun _ => 0⟩).keyPoints.length) :=
  ⟨le_refl 0, by norm_num,
   c3_mock_total_wellformed AgentType.fundamental _ _ (le_refl 0) (by norm_num)⟩

/-- A fresh `SETEX` is immediately visible with its TTL. -/
theorem storeLookup_storeSet_self (k : String) (v : JVal) (t : Nat)
    (store : List (String × JVal × Nat)) :
    storeLookup (storeSet k v t store) k = some (v, t) := by
  simp [storeSet, storeLookup]

/-- C10: a stored entry whose serialized value decodes to `null` (for
example after `getOrSet` cached a computed `null`) is counted as a hit by
`get` — the read found a value and increments `hits` — yet `getOrSet`
still invokes its compute function (exactly once), returns the fresh
value, and re-writes the cache entry: a cached `null` never suppresses
recomputation. -/
theorem c10_cached_null_recomputes (b : Backend) (s : Stats) (k : String) (T : Nat)
    (cv : JVal) (o : CacheOptions)
    (h : storeLookup b.store k = some (JVal.jnull, T)) :
    (CacheService.getOrSet noFaults ⟨true, b, s⟩ k cv o).2.2 = 1
    ∧ (CacheService.getOrSet noFaults ⟨true, b, s⟩ k cv o).1 = cv
    ∧ (CacheService.getOrSet noFaults ⟨true, b, s⟩ k cv o).2.1.stats.hits = s.hits + 1
    ∧ storeLookup (CacheService.getOrSet noFaults ⟨true, b, s⟩ k cv o).2.1.backend.store k
        = some (cv, o.effectiveTtl) := by
  have hget : CacheService.get noFaults ⟨true, b, s⟩ k
      = (JVal.jnull, ⟨true, b, updateHitRate { s with hits := s.hits + 1 }⟩) := by
    simp [CacheService.get, noFaults, h]
  have hset : ∀ (s' : Stats),
      (CacheService.set noFaults ⟨true, b, s'⟩ k cv o).2.backend.store
          = storeSet k cv o.effectiveTtl b.store
      ∧ (CacheService.set noFaults ⟨true, b, s'⟩ k cv o).2.stats.hits = s'.hits := by
    intro s'
    rcases ho : o.tags with _ | tgs
    · simp [CacheService.set, noFaults, ho]
    · cases he : tgs.isEmpty <;> simp [CacheService.set, noFaults, ho, he]
  have hgos : CacheService.getOrSet noFaults ⟨true, b, s⟩ k cv o
      = (cv, (CacheService.set noFaults ⟨true, b, updateHitRate { s with hits := s.hits + 1 }⟩
              k cv o).2, 1) := by
    simp [CacheService.getOrSet, hget, JVal.isNull]
  rw [hgos]
  refine ⟨rfl, rfl, ?_, ?_⟩
  · rw [(hset _).2]
    simp [updateHitRate]
  · rw [(hset _).1]
    exact storeLookup_storeSet_self k cv o.effectiveTtl b.store

/-- Witness for C10: a concrete healthy state holding a cached `null`. -/
theorem c10_witness :
    storeLookup (Backend.mk [("k", JVal.jnull, 60)] []).store "k" = some (JVal.jnull, 60)
    ∧ (CacheService.getOrSet noFaults ⟨true, ⟨[("k", JVal.jnull, 60)], []⟩, Stats.init⟩ "k"
        (JVal.jnum 3) ⟨none, none⟩).2.2 = 1
    ∧ (CacheService.getOrSet noFaults ⟨true, ⟨[("k", JVal.jnull, 60)], []⟩, Stats.init⟩ "k"
        (JVal.jnum 3) ⟨none, none⟩).2.1.stats.hits = Stats.init.hits + 1 := by
  have h := c10_cached_null_recomputes (Backend.mk [("k", JVal.jnull, 60)] []) Stats.init "k"
    60 (JVal.jnum 3) ⟨none, none⟩ (by rfl)
  exact ⟨by rfl, h.1, h.2.2.1⟩

/-- Appending a fresh tag entry is found by a lookup of its key. -/
theorem tagLookup_append_self (l : List (String × List String × Nat)) (tk : String)
    (x : List String × Nat) (h : tagLookup l tk = none) :
    tagLookup (l ++ [(tk, x)]) tk = some x := by
  induction l with
  | nil => simp [tagLookup]
  | cons e rest ih =>
    by_cases he : e.1 = tk
    · simp [tagLookup, he] at h
    · simp [tagLookup, he] at h ⊢
      exact ih h

/-- Replacing the entry of one tag key in place is found by a lookup of
that key, provided the key was present. -/
theorem tagLookup_map_replace (l : List (String × List String × Nat)) (tk : String)
    (newv old : List String × Nat) (h : tagLookup l tk = some old) :
    tagLookup (l.map fun e => if e.1 = tk then (tk, newv) else e) tk = some newv := by
  induction l with
  | nil => simp [tagLookup] at h
  | cons e rest ih =>
    by_cases he : e.1 = tk
    · simp [tagLookup, he]
    · simp [tagLookup, he] at h ⊢
      exact ih h

/-- After `SADD tk k`, the set at `tk` exists and contains `k`; its TTL
field is untouched when the set already existed. -/
theorem tagLookup_tagSadd_self (tags : List (String × List String × Nat)) (tk k : String) :
    (tagLookup tags tk = none
      → tagLookup (tagSadd tk k tags) tk = some ([k], 0))
    ∧ ∀ mem t, tagLookup tags tk = some (mem, t)
      → tagLookup (tagSadd tk k tags) tk
          = some (if k ∈ mem then mem else mem ++ [k], t) := by
  constructor
  · intro h
    simp only [tagSadd, h]
    exact tagLookup_append_self tags tk ([k], 0) h
  · intro mem t h
    simp only [tagSadd, h]
    exact tagLookup_map_replace tags tk _ (mem, t) h

/-- After `EXPIRE tk T`, the members at `tk` are unchanged and its TTL is
exactly `T`. -/
theorem tagLookup_tagExpire_self (tags : List (String × List String × Nat)) (tk : String)
    (T : Nat) (mem : List String) (t : Nat) (h : tagLookup tags tk = some (mem, t)) :
    tagLookup (tagExpire tk T tags) tk = some (mem, T) := by
  induction tags with
  | nil => simp [tagLookup] at h
  | cons e rest ih =>
    rcases e with ⟨k0, m0, t0⟩
    by_cases he : k0 = tk
    · simp [tagLookup, he] at h
      simp [tagExpire, tagLookup, he, h.1]
    · simp [tagLookup, he] at h
      simp only [tagExpire, List.map_cons] at ih ⊢
      simp [tagLookup, he] at ih ⊢
      exact ih h

/-- `SADD` on one tag key leaves lookups of other tag keys unchanged. -/
theorem tagLookup_tagSadd_other (tags : List (String × List String × Nat)) (tk tk' k : String)
    (hne : tk' ≠ tk) : tagLookup (tagSadd tk k tags) tk' = tagLookup tags tk' := by
  have hne' : tk ≠ tk' := Ne.symm hne
  have hgen : ∀ (l : List (String × List String × Nat)) (x : List String × Nat),
      tagLookup (l ++ [(tk, x)]) tk' = tagLookup l tk' := by
    intro l x
    induction l with
    | nil => simp [tagLookup, hne']
    | cons e rest ih =>
      by_cases he : e.1 = tk'
      · simp [tagLookup, he]
      · simp [tagLookup, he, ih]
  have hmap : ∀ (l : List (String × List String × Nat)) (newv : List String × Nat),
      tagLookup (l.map fun e => if e.1 = tk then (tk, newv) else e) tk'
        = tagLookup l tk' := by
    intro l newv
    induction l with
    | nil => simp [tagLookup]
    | cons e rest ih =>
      by_cases he : e.1 = tk
      · simp [tagLookup, he, hne', ih]
      · simp only [List.map_cons, if_neg he]
        by_cases he' : e.1 = tk'
        · simp [tagLookup, he']
        · simp [tagLookup, he', ih]
  cases h : tagLookup tags tk
  · simp only [tagSadd, h]
    exact hgen tags ([k], 0)
  · simp only [tagSadd, h]
    exact hmap tags _

/-- `EXPIRE` on one tag key leaves lookups of other tag keys unchanged. -/
theorem tagLookup_tagExpire_other (tags : List (String × List String × Nat)) (tk tk' : String)
    (T : Nat) (hne : tk' ≠ tk) :
    tagLookup (tagExpire tk T tags) tk' = tagLookup tags tk' := by
  have hne' : tk ≠ tk' := Ne.symm hne
  induction tags with
  | nil => simp [tagExpire, tagLookup]
  | cons e rest ih =>
    by_cases he : e.1 = tk
    · simp only [tagExpire, List.map_cons, if_pos he] at ih ⊢
      simp [tagLookup, he, hne'] at ih ⊢
      exact ih
    · simp only [tagExpire, List.map_cons, if_neg he] at ih ⊢
      by_cases he' : e.1 = tk'
      · simp [tagLookup, he']
      · simp [tagLookup, he', ih]

/-- The tag pipeline preserves "the set at `tk` has TTL `T` and contains
`key`" — each later tag either re-adds the same key and re-sets the same
TTL, or touches a different tag key. -/
theorem applyTags_preserves (tgs : List String) (key : String) (T : Nat)
    (table : List (String × List String × Nat)) (tk : String)
    (h : ∃ mem, tagLookup table tk = some (mem, T) ∧ key ∈ mem) :
    ∃ mem, tagLookup (applyTags tgs key T table) tk = some (mem, T) ∧ key ∈ mem := by
  induction tgs generalizing table with
  | nil => exact h
  | cons tg rest ih =>
    rcases h with ⟨mem, hl, hk⟩
    apply ih
    by_cases hc : ("tag:" ++ tg) = tk
    · subst hc
      have h1 := (tagLookup_tagSadd_self table ("tag:" ++ tg) key).2 mem T hl
      have h2 := tagLookup_tagExpire_self _ ("tag:" ++ tg) T _ _ h1
      refine ⟨if key ∈ mem then mem else mem ++ [key], h2, ?_⟩
      by_cases hkm : key ∈ mem <;> simp [hkm]
    · have hc' : tk ≠ ("tag:" ++ tg) := fun h => hc h.symm
      rw [tagLookup_tagExpire_other _ _ _ _ hc', tagLookup_tagSadd_other _ _ _ _ hc']
      exact ⟨mem, hl, hk⟩

/-- Running the tag pipeline for a `set` leaves, for every tag in the list,
a TagSet that contains the key and whose TTL is exactly this `set`'s TTL. -/
theorem applyTags_mem (tgs : List String) (key : String) (T : Nat)
    (table : List (String × List String × Nat)) (t : String) (ht : t ∈ tgs) :
    ∃ mem, tagLookup (applyTags tgs key T table) ("tag:" ++ t) = some (mem, T)
      ∧ key ∈ mem := by
  induction tgs generalizing table with
  | nil => cases ht
  | cons tg rest ih =>
    simp only [applyTags]
    rcases List.mem_cons.mp ht with heq | hrest
    · subst heq
      apply applyTags_preserves
      cases hl : tagLookup table ("tag:" ++ t)
      · have h1 := (tagLookup_tagSadd_self table ("tag:" ++ t) key).1 hl
        have h2 := tagLookup_tagExpire_self _ ("tag:" ++ t) T _ _ h1
        exact ⟨[key], h2, by simp⟩
      · rename_i p
        have h1 := (tagLookup_tagSadd_self table ("tag:" ++ t) key).2 p.1 p.2 (by simpa using hl)
        have h2 := tagLookup_tagExpire_self _ ("tag:" ++ t) T _ _ h1
        refine ⟨if key ∈ p.1 then p.1 else p.1 ++ [key], h2, ?_⟩
        by_cases hkm : key ∈ p.1 <;> simp [hkm]
    · exact ih _ hrest

/-- C6 counterexample: two sets under the same tag, the second with a
shorter TTL, leave the TagSet with the second TTL (10), strictly below the
longer TTL (1000) previously established — `EXPIRE` overwrites the
TagSet's expiry, so the TagSet's expiry is the TTL of the most recent key
added under the tag, not the longest. -/
theorem c6_counterexample :
    tagLookup ((CacheService.set noFaults
        ((CacheService.set noFaults ⟨true, ⟨[], []⟩, Stats.init⟩ "k1" (JVal.jnum 1)
          ⟨some 1000, some ["t"]⟩).2) "k2" (JVal.jnum 2) ⟨some 10, some ["t"]⟩).2.backend.tags)
      "tag:t" = some (["k1", "k2"], 10)
    ∧ (10 : Nat) < 1000 := by
  constructor
  · rfl
  · norm_num

/-- C6 (amended): after each `set(key, value, {ttl, tags})` against a
healthy connected backend, every TagSet named in `tags` contains the key
and its remaining TTL equals that `set`'s (effective, nonzero) ttlSeconds —
the most recent `set` under a tag overwrites the TagSet's expiry, so a
later `set` with a shorter ttl shortens the TagSet's TTL; it is not
extended to the longest TTL ever added. -/
theorem c6_tagset_ttl_overwrite (b : Backend) (s : Stats) (k : String) (v : JVal) (T : Nat)
    (tags : List String) (t : String) (ht : t ∈ tags) (hT : T ≠ 0) :
    ∃ mem,
      tagLookup ((CacheService.set noFaults ⟨true, b, s⟩ k v
          ⟨some T, some tags⟩).2.backend.tags) ("tag:" ++ t) = some (mem, T)
      ∧ k ∈ mem := by
  have hne : tags.isEmpty = false := by
    cases tags
    · cases ht
    · rfl
  have heff : (CacheOptions.mk (some T) (some tags)).effectiveTtl = T := by
    simp [CacheOptions.effectiveTtl, hT]
  simp only [CacheService.set, noFaults, heff, hne, if_false, Bool.false_eq_true]
  simp only [if_neg (by simp : ¬ (true = false))]
  exact applyTags_mem tags k T b.tags t ht

/-- Witness for C6 at a concrete set with one tag. -/
theorem c6_witness :
    ("t" ∈ ["t", "u"]) ∧ (1000 : Nat) ≠ 0
    ∧ ∃ mem,
        tagLookup ((CacheService.set noFaults ⟨true, ⟨[], []⟩, Stats.init⟩ "k" (JVal.jnum 1)
            ⟨some 1000, some ["t", "u"]⟩).2.backend.tags) ("tag:" ++ "t") = some (mem, 1000)
        ∧ "k" ∈ mem :=
  ⟨by simp, by norm_num,
   c6_tagset_ttl_overwrite ⟨[], []⟩ Stats.init "k" (JVal.jnum 1) 1000 ["t", "u"] "t"
     (by simp) (by norm_num)⟩

/-- The outcome the fundamentals chain attributes to the Alpha Vantage
provider: skipped when no API key is configured; an invoked call counts as
a success only when it returns a non-empty record (the
`!fundamentals || Object.keys(fundamentals).length === 0` guard treats an
empty record like a failure). -/
def avOutcome (hasKey : Bool) (av : Except Unit Fund) : Option (Except Unit Fund) :=
  if hasKey then
    some (match av with
          | .ok fd => if fd.isEmpty then .error () else .ok fd
          | .error _ => .error ())
  else none

/-- The outcome attributed to the Yahoo Finance provider (always
configured; an empty record counts as a failure). -/
def yaOutcome (ya : Except Unit Fund) : Option (Except Unit Fund) :=
  some (match ya with
        | .ok fd => if fd.isEmpty then .error () else .ok fd
        | .error _ => .error ())

/-- C2: the fallback orchestrator returns the result of the first
succeeding provider and never invokes any provider after it (the trace of
invoked providers is exactly the configured prefix up to and including the
first success); when every provider fails it returns the synthetic
fallback value and, being a total function, never raises.  Both
instantiations refine this shape: `generateAgentPerspective` is the chain
OpenAI → Anthropic → Google with `generateIntelligentMock` as fallback,
and `getFundamentals` on a cache miss is the chain Alpha Vantage → Yahoo
Finance with `generateMockFundamentals` as fallback. -/
theorem c2_provider_fallback :
    (∀ (R : Type) (pre post : List (Provider R)) (n : String) (r fb : R),
      (∀ p ∈ pre, ¬ providerSucceeds p) →
      runChain (pre ++ (n, some (Except.ok r)) :: post) fb = (r, invokedNames pre ++ [n]))
    ∧ (∀ (R : Type) (ps : List (Provider R)) (fb : R),
      (∀ p ∈ ps, ¬ providerSucceeds p) →
      runChain ps fb = (fb, invokedNames ps))
    ∧ (∀ (agentType : AgentType) (c : FinancialContext) (rnd : Rand)
        (oa an go : Option (Except Unit LLMResponse)),
      generateAgentPerspective agentType c rnd oa an go
        = (⟨agentType,
            (runChain [("OpenAI", oa), ("Anthropic", an), ("Google", go)]
              (generateIntelligentMock agentType c rnd)).1.recommendation,
            (runChain [("OpenAI", oa), ("Anthropic", an), ("Google", go)]
              (generateIntelligentMock agentType c rnd)).1.targetPrice,
            (runChain [("OpenAI", oa), ("Anthropic", an), ("Google", go)]
              (generateIntelligentMock agentType c rnd)).1.reasoning,
            (runChain [("OpenAI", oa), ("Anthropic", an), ("Google", go)]
              (generateIntelligentMock agentType c rnd)).1.confidence,
            (runChain [("OpenAI", oa), ("Anthropic", an), ("Google", go)]
              (generateIntelligentMock agentType c rnd)).1.keyPoints,
            mapBias (runChain [("OpenAI", oa), ("Anthropic", an), ("Google", go)]
              (generateIntelligentMock agentType c rnd)).1.bias⟩,
           (runChain [("OpenAI", oa), ("Anthropic", an), ("Google", go)]
             (generateIntelligentMock agentType c rnd)).2))
    ∧ (∀ (f : Faults) (st : CacheState) (hasKey : Bool) (av ya : Except Unit Fund)
        (symbol : String),
      (CacheService.get f st ("fundamentals:" ++ symbol)).1.jsTruthy = false →
      (getFundamentals f st hasKey av ya symbol).1
          = (runChain [("alphaVantage", avOutcome hasKey av), ("yahooFinance", yaOutcome ya)]
              (generateMockFundamentals symbol)).1
        ∧ (getFundamentals f st hasKey av ya symbol).2.2
          = (runChain [("alphaVantage", avOutcome hasKey av), ("yahooFinance", yaOutcome ya)]
              (generateMockFundamentals symbol)).2) := by
  refine ⟨?_, ?_, ?_, ?_⟩
  · intro R pre post n r fb hpre
    induction pre with
    | nil => simp [runChain, invokedNames]
    | cons p rest ih =>
      have hp := hpre p (by simp)
      have hrest : ∀ q ∈ rest, ¬ providerSucceeds q := fun q hq => hpre q (by simp [hq])
      rcases p with ⟨name, _ | (e | r0)⟩
      · simpa [runChain, invokedNames] using ih hrest
      · simp [runChain, invokedNames, ih hrest]
      · exact absurd ⟨r0, rfl⟩ hp
  · intro R ps fb hps
    induction ps with
    | nil => simp [runChain, invokedNames]
    | cons p rest ih =>
      have hp := hps p (by simp)
      have hrest : ∀ q ∈ rest, ¬ providerSucceeds q := fun q hq => hps q (by simp [hq])
      rcases p with ⟨name, _ | (e | r0)⟩
      · simpa [runChain, invokedNames] using ih hrest
      · simp [runChain, invokedNames, ih hrest]
      · exact absurd ⟨r0, rfl⟩ hp
  · intro agentType c rnd oa an go
    rcases oa with _ | (e | r) <;> rcases an with _ | (e | r) <;> rcases go with _ | (e | r) <;>
      rfl
  · intro f st hasKey av ya symbol h
    cases hasKey <;> rcases av with e | fd <;> rcases ya with e' | fd'
    case false.error.error =>
      simp [getFundamentals, h, avOutcome, yaOutcome, fundMissing, runChain]
    case false.error.ok =>
      cases hfd : fd'.isEmpty <;>
        simp [getFundamentals, h, avOutcome, yaOutcome, fundMissing, runChain, hfd]
    case false.ok.error =>
      simp [getFundamentals, h, avOutcome, yaOutcome, fundMissing, runChain]
    case false.ok.ok =>
      cases hfd : fd'.isEmpty <;>
        simp [getFundamentals, h, avOutcome, yaOutcome, fundMissing, runChain, hfd]
    case true.error.error =>
      simp [getFundamentals, h, avOutcome, yaOutcome, fundMissing, runChain]
    case true.error.ok =>
      cases hfd : fd'.isEmpty <;>
        simp [getFundamentals, h, avOutcome, yaOutcome, fundMissing, runChain, hfd]
    case true.ok.error =>
      cases hfd : fd.isEmpty <;>
        simp [getFundamentals, h, avOutcome, yaOutcome, fundMissing, runChain, hfd]
    case true.ok.ok =>
      cases hfd : fd.isEmpty <;> cases hfd' : fd'.isEmpty <;>
        simp [getFundamentals, h, avOutcome, yaOutcome, fundMissing, runChain, hfd, hfd']

/-- Witness for C2: a concrete chain `[P1 fails, P2 succeeds, P3 ...]`
returns P2's result having invoked only P1 and P2; a concrete all-fail
chain returns the fallback; and the fundamentals instantiation on a
concrete cache miss (disconnected backend, so the read degrades to a
miss) with both providers failing returns the mock result having invoked
both providers. -/
theorem c2_witness :
    ((∀ p ∈ [(("P1" : String), some (Except.error ()))], ¬ providerSucceeds (R := Nat) p)
      ∧ runChain [("P1", some (.error ())), ("P2", some (.ok (5 : Nat))),
          ("P3", some (.ok 7))] 0 = (5, ["P1", "P2"]))
    ∧ ((∀ p ∈ [(("P1" : String), some (Except.error ())), ("P2", none)],
          ¬ providerSucceeds (R := Nat) p)
      ∧ runChain [(("P1" : String), some (Except.error ())), ("P2", none)] (9 : Nat)
          = (9, ["P1"]))
    ∧ ((CacheService.get noFaults ⟨false, ⟨[], []⟩, Stats.init⟩
          ("fundamentals:" ++ "ZZZ")).1.jsTruthy = false
      ∧ (getFundamentals noFaults ⟨false, ⟨[], []⟩, Stats.init⟩ true (.error ()) (.error ())
          "ZZZ").1
        = (runChain [("alphaVantage", avOutcome true (.error ())),
            ("yahooFinance", yaOutcome (.error ()))] (generateMockFundamentals "ZZZ")).1) := by
  have hfail1 : ∀ p ∈ [(("P1" : String), some (Except.error ()))],
      ¬ providerSucceeds (R := Nat) p := by
    intro p hp
    rcases List.mem_singleton.mp hp with rfl
    rintro ⟨r, hr⟩
    simp at hr
  have hfail2 : ∀ p ∈ [(("P1" : String), some (Except.error ())), (("P2" : String), none)],
      ¬ providerSucceeds (R := Nat) p := by
    intro p hp
    rcases List.mem_cons.mp hp with rfl | hp2
    · rintro ⟨r, hr⟩
      simp at hr
    · rcases List.mem_singleton.mp hp2 with rfl
      rintro ⟨r, hr⟩
      simp at hr
  refine ⟨⟨hfail1, ?_⟩, ⟨hfail2, ?_⟩, by rfl, ?_⟩
  · exact c2_provider_fallback.1 Nat [("P1", some (.error ()))] [("P3", some (.ok 7))]
      "P2" 5 0 hfail1
  · exact c2_provider_fallback.2.1 Nat _ 9 hfail2
  · exact (c2_provider_fallback.2.2.2 noFaults ⟨false, ⟨[], []⟩, Stats.init⟩ true
      (.error ()) (.error ()) "ZZZ" (by rfl)).1

/-- With unique keys, a lookup answers `some v` exactly when the entry is
in the list. -/
theorem findVal_eq_some_iff (es : List (String × JVal))
    (hnd : (es.map Prod.fst).Nodup) (k : String) (v : JVal) :
    findVal k es = some v ↔ (k, v) ∈ es := by
  induction es with
  | nil => simp [findVal]
  | cons e rest ih =>
    rcases e with ⟨k0, v0⟩
    simp only [List.map_cons, List.nodup_cons] at hnd
    by_cases he : k0 = k
    · simp only [findVal, if_pos he, List.mem_cons, Option.some.injEq, Prod.mk.injEq]
      constructor
      · intro h
        exact Or.inl ⟨he.symm, h.symm⟩
      · rintro (⟨-, hv⟩ | hmem)
        · exact hv.symm
        · exfalso
          apply hnd.1
          rw [he]
          exact List.mem_map.mpr ⟨(k, v), hmem, rfl⟩
    · simp only [findVal, if_neg he, List.mem_cons, Prod.mk.injEq]
      rw [ih hnd.2]
      constructor
      · exact fun h => Or.inr h
      · rintro (⟨hk, -⟩ | h)
        · exact absurd hk.symm he
        · exact h

/-- Lookups agree on permuted entry lists with unique keys. -/
theorem findVal_eq_of_perm (es1 es2 : List (String × JVal)) (hp : es1.Perm es2)
    (hnd : (es1.map Prod.fst).Nodup) (k : String) : findVal k es1 = findVal k es2 := by
  have hnd2 : (es2.map Prod.fst).Nodup := (hp.map Prod.fst).nodup hnd
  cases h1 : findVal k es1 with
  | some v =>
    have hm : (k, v) ∈ es2 := hp.mem_iff.mp ((findVal_eq_some_iff es1 hnd k v).mp h1)
    exact ((findVal_eq_some_iff es2 hnd2 k v).mpr hm).symm
  | none =>
    cases h2 : findVal k es2 with
    | none => rfl
    | some v =>
      have hm : (k, v) ∈ es1 := hp.mem_iff.mpr ((findVal_eq_some_iff es2 hnd2 k v).mp h2)
      rw [(findVal_eq_some_iff es1 hnd k v).mpr hm] at h1
      cases h1

/-- Sorting two permuted key lists with the JavaScript ordering yields the
same list. -/
theorem insertionSort_eq_of_perm (l1 l2 : List String) (hp : l1.Perm l2) :
    l1.insertionSort jsStrLe = l2.insertionSort jsStrLe :=
  List.eq_of_perm_of_sorted
    ((List.perm_insertionSort jsStrLe l1).trans
      (hp.trans (List.perm_insertionSort jsStrLe l2).symm))
    (List.sorted_insertionSort jsStrLe l1) (List.sorted_insertionSort jsStrLe l2)

/-- The sorted copy taken before hashing is invariant under top-level
property reordering (with the keys unique, as a JavaScript object's keys
are). -/
theorem sortedEntries_eq_of_perm (es1 es2 : List (String × JVal)) (hp : es1.Perm es2)
    (hnd : (es1.map Prod.fst).Nodup) : sortedEntries es1 = sortedEntries es2 := by
  have hf : (fun k => (k, (findVal k es1).getD JVal.jnull))
      = (fun k => (k, (findVal k es2).getD JVal.jnull)) :=
    funext fun k => by rw [findVal_eq_of_perm es1 es2 hp hnd k]
  simp only [sortedEntries]
  rw [insertionSort_eq_of_perm _ _ (hp.map Prod.fst), hf]

/-- C5 counterexample: two objects that are deep-equal regardless of
property order — they differ only in the order of the properties of the
*nested* object under `"x"` — produce different cache keys: `generateKey`
sorts only the top-level keys and serializes nested objects in their
original property order. -/
theorem c5_counterexample :
    DeepEqUpToOrder
      (JVal.jobj [("x", JVal.jobj [("b", JVal.jstr "2"), ("a", JVal.jstr "1")])])
      (JVal.jobj [("x", JVal.jobj [("a", JVal.jstr "1"), ("b", JVal.jstr "2")])])
    ∧ CacheService.generateKey
        [KeyPart.ko [("x", JVal.jobj [("b", JVal.jstr "2"), ("a", JVal.jstr "1")])]]
      ≠ CacheService.generateKey
        [KeyPart.ko [("x", JVal.jobj [("a", JVal.jstr "1"), ("b", JVal.jstr "2")])]] := by
  constructor
  · rfl
  · decide

/-- C5 (amended): `generateKey` is invariant under reordering of an object
component's *top-level* properties — components whose entry lists are
permutations of each other with unique keys (and scalar components that
are equal) yield the same key — but, as the counterexample shows, not
under reordering inside nested sub-objects, whose serialization keeps the
original property order. -/
theorem c5_generateKey_top_level_order (comps1 comps2 : List KeyPart)
    (h : List.Forall₂ KeyPartTopEquiv comps1 comps2) :
    CacheService.generateKey comps1 = CacheService.generateKey comps2 := by
  simp only [CacheService.generateKey]
  congr 1
  induction h with
  | nil => rfl
  | cons hrel hrest ih =>
    simp only [List.map_cons]
    rw [ih]
    congr 1
    cases hrel with
    | ks s => rfl
    | kn q => rfl
    | ko es1 es2 hp hnd => simp [sortedEntries_eq_of_perm es1 es2 hp hnd]

/-- Witness for C5: a concrete pair of single-object component lists that
differ only in top-level property order get the same key. -/
theorem c5_witness :
    List.Forall₂ KeyPartTopEquiv
      [KeyPart.ko [("b", JVal.jstr "2"), ("a", JVal.jstr "1")]]
      [KeyPart.ko [("a", JVal.jstr "1"), ("b", JVal.jstr "2")]]
    ∧ CacheService.generateKey [KeyPart.ko [("b", JVal.jstr "2"), ("a", JVal.jstr "1")]]
      = CacheService.generateKey [KeyPart.ko [("a", JVal.jstr "1"), ("b", JVal.jstr "2")]] := by
  have hperm : [("b", JVal.jstr "2"), ("a", JVal.jstr "1")].Perm
      [("a", JVal.jstr "1"), ("b", JVal.jstr "2")] :=
    List.Perm.swap ("a", JVal.jstr "1") ("b", JVal.jstr "2") []
  have hnd : ([("b", JVal.jstr "2"), ("a", JVal.jstr "1")].map Prod.fst).Nodup := by
    simp
  have hf2 : List.Forall₂ KeyPartTopEquiv
      [KeyPart.ko [("b", JVal.jstr "2"), ("a", JVal.jstr "1")]]
      [KeyPart.ko [("a", JVal.jstr "1"), ("b", JVal.jstr "2")]] :=
    List.Forall₂.cons (KeyPartTopEquiv.ko _ _ hperm hnd) List.Forall₂.nil
  exact ⟨hf2, c5_generateKey_top_level_order _ _ hf2⟩

/-- Membership after a sequence of `Set.add` insertions. -/
theorem mem_foldl_setInsert (l : List String) (acc : List String) (m : String) :
    m ∈ l.foldl setInsert acc ↔ m ∈ acc ∨ m ∈ l := by
  induction l generalizing acc with
  | nil => simp
  | cons x rest ih =>
    simp only [List.foldl_cons, ih, setInsert]
    by_cases hx : x ∈ acc
    · simp only [if_pos hx, List.mem_cons]
      constructor
      · rintro (h | h)
        · exact Or.inl h
        · exact Or.inr (Or.inr h)
      · rintro (h | h | h)
        · exact Or.inl h
        · exact Or.inl (h ▸ hx)
        · exact Or.inr h
    · simp only [if_neg hx, List.mem_append, List.mem_singleton, List.mem_cons]
      tauto

/-- `Set.add` keeps the accumulated list duplicate-free. -/
theorem nodup_foldl_setInsert (l : List String) (acc : List String) (h : acc.Nodup) :
    (l.foldl setInsert acc).Nodup := by
  induction l generalizing acc with
  | nil => exact h
  | cons x rest ih =>
    simp only [List.foldl_cons, setInsert]
    by_cases hx : x ∈ acc
    · simp only [if_pos hx]
      exact ih acc h
    · simp only [if_neg hx]
      refine ih _ ?_
      simpa [List.nodup_append] using ⟨h, hx⟩

/-- The union of the TagSets is duplicate-free. -/
theorem nodup_collectKeys (tags : List String) (table : List (String × List String × Nat)) :
    (collectKeys tags table).Nodup := by
  have hgen : ∀ (ts : List String) (acc : List String), acc.Nodup →
      (ts.foldl (fun a tg => (tagSmembers table ("tag:" ++ tg)).foldl setInsert a) acc).Nodup := by
    intro ts
    induction ts with
    | nil => exact fun acc h => h
    | cons tg rest ih =>
      intro acc h
      exact ih _ (nodup_foldl_setInsert _ acc h)
  exact hgen tags [] List.nodup_nil

/-- A key is in the union exactly when some queried TagSet contains it. -/
theorem mem_collectKeys (tags : List String) (table : List (String × List String × Nat))
    (m : String) :
    m ∈ collectKeys tags table
      ↔ ∃ tg ∈ tags, m ∈ tagSmembers table ("tag:" ++ tg) := by
  have hgen : ∀ (ts : List String) (acc : List String),
      m ∈ ts.foldl (fun a tg => (tagSmembers table ("tag:" ++ tg)).foldl setInsert a) acc
        ↔ m ∈ acc ∨ ∃ tg ∈ ts, m ∈ tagSmembers table ("tag:" ++ tg) := by
    intro ts
    induction ts with
    | nil => simp
    | cons tg rest ih =>
      intro acc
      simp only [List.foldl_cons, ih, mem_foldl_setInsert, List.mem_cons]
      constructor
      · rintro ((h | h) | ⟨tg', htg', h⟩)
        · exact Or.inl h
        · exact Or.inr ⟨tg, Or.inl rfl, h⟩
        · exact Or.inr ⟨tg', Or.inr htg', h⟩
      · rintro (h | ⟨tg', htg' | htg', h⟩)
        · exact Or.inl (Or.inl h)
        · exact Or.inl (Or.inr (htg' ▸ h))
        · exact Or.inr ⟨tg', htg', h⟩
  simpa using hgen tags []

/-- Effect of `DEL k` on a later lookup. -/
theorem storeLookup_storeRemove (k k' : String) (store : List (String × JVal × Nat)) :
    storeLookup (storeRemove k store) k' = if k' = k then none else storeLookup store k' := by
  induction store with
  | nil => simp [storeRemove, storeLookup]
  | cons e rest ih =>
    by_cases hek : e.1 = k
    · by_cases hk' : k' = k
      · subst hk'
        simp [storeRemove, storeLookup, hek, ih]
      · have hne : ¬ (k = k') := fun h => hk' h.symm
        simp [storeRemove, storeLookup, hek, hk', hne, ih]
    · by_cases he' : e.1 = k'
      · have hkk : ¬ (k' = k) := fun h => hek (by rw [he', h])
        simp [storeRemove, storeLookup, hek, he', hkk]
      · simp [storeRemove, storeLookup, hek, he', ih]

/-- `DEL keys...` answers, for every key, `none` for deleted keys and the
old binding for the rest. -/
theorem storeLookup_redisDel (keys : List String) (store : List (String × JVal × Nat))
    (k : String) :
    storeLookup (redisDel keys store).2 k
      = if k ∈ keys then none else storeLookup store k := by
  induction keys generalizing store with
  | nil => simp [redisDel]
  | cons x rest ih =>
    simp only [redisDel]
    have : (redisDel (x :: rest) store).2 = (redisDel rest (storeRemove x store)).2 := by
      simp [redisDel]
    by_cases hk : k ∈ x :: rest
    · rcases List.mem_cons.mp hk with rfl | hk2
      · by_cases hxr : k ∈ rest
        · simp [redisDel, ih, hxr, hk]
        · simp [redisDel, ih, hxr, hk, storeLookup_storeRemove]
      · simp [redisDel, ih, hk2, hk]
    · have hx : ¬ (k = x) := fun h => hk (by simp [h])
      have hr : ¬ (k ∈ rest) := fun h => hk (by simp [h])
      simp [redisDel, ih, hr, hk, storeLookup_storeRemove, hx]

/-- `DEL keys...` on duplicate-free keys counts exactly the keys that were
present. -/
theorem redisDel_count (keys : List String) (store : List (String × JVal × Nat))
    (hnd : keys.Nodup) :
    (redisDel keys store).1
      = (keys.filter (fun k => (storeLookup store k).isSome)).length := by
  induction keys generalizing store with
  | nil => simp [redisDel]
  | cons x rest ih =>
    simp only [List.nodup_cons] at hnd
    have hsame : ∀ k ∈ rest, storeLookup (storeRemove x store) k = storeLookup store k := by
      intro k hk
      rw [storeLookup_storeRemove]
      have : ¬ (k = x) := fun h => hnd.1 (h ▸ hk)
      simp [this]
    have hfilter : rest.filter (fun k => (storeLookup (storeRemove x store) k).isSome)
        = rest.filter (fun k => (storeLookup store k).isSome) := by
      apply List.filter_congr
      intro k hk
      rw [hsame k hk]
    simp only [redisDel, List.filter_cons]
    rw [ih _ hnd.2, hfilter]
    by_cases hp : (storeLookup store x).isSome
    · simp [hp, Nat.add_comm]
    · simp [hp]

/-- A tag-key lookup that answers `some` exhibits a table entry. -/
theorem tagLookup_mem (table : List (String × List String × Nat)) (tk : String)
    (p : List String × Nat) (h : tagLookup table tk = some p) : (tk, p) ∈ table := by
  induction table with
  | nil => simp [tagLookup] at h
  | cons e rest ih =>
    by_cases he : e.1 = tk
    · simp only [tagLookup, if_pos he, Option.some.injEq] at h
      rcases e with ⟨k0, p0⟩
      simp only at he h
      subst he
      subst h
      exact List.mem_cons_self _ _
    · simp only [tagLookup, if_neg he] at h
      exact List.mem_cons_of_mem _ (ih h)

/-- Deleting a list of tag keys removes each of them from the index. -/
theorem tagLookup_tagsDel (tks : List String) (table : List (String × List String × Nat))
    (tk : String) (h : tk ∈ tks) : tagLookup (tagsDel tks table) tk = none := by
  induction table with
  | nil => simp [tagsDel, tagLookup]
  | cons e rest ih =>
    by_cases he : e.1 ∈ tks
    · simp [tagsDel, he, ih]
    · have hne : ¬ (e.1 = tk) := fun hh => he (hh ▸ h)
      simp [tagsDel, he, tagLookup, hne, ih]

/-- C8: against a healthy connected backend (and a well-formed tag index —
Redis never stores an empty set, so every TagSet present has at least one
member), `invalidateByTags(tags)` removes from the store every key in the
union of the queried TagSets, removes the TagSets themselves, and returns
the number of keys removed (the members of the union that were actually
present in the store). -/
theorem c8_invalidateByTags (b : Backend) (s : Stats) (t : String) (ts : List String)
    (hWF : ∀ e ∈ b.tags, e.2.1 ≠ []) :
    (∀ k ∈ collectKeys (t :: ts) b.tags,
      storeLookup (CacheService.invalidateByTags noFaults ⟨true, b, s⟩
          (t :: ts)).2.backend.store k = none)
    ∧ (∀ tg ∈ t :: ts,
      tagLookup (CacheService.invalidateByTags noFaults ⟨true, b, s⟩
          (t :: ts)).2.backend.tags ("tag:" ++ tg) = none)
    ∧ (CacheService.invalidateByTags noFaults ⟨true, b, s⟩ (t :: ts)).1
      = ((collectKeys (t :: ts) b.tags).filter
          (fun k => (storeLookup b.store k).isSome)).length := by
  cases hU : (collectKeys (t :: ts) b.tags).isEmpty
  · -- some TagSet was non-empty: the keys are deleted and the TagSets dropped
    have hres : CacheService.invalidateByTags noFaults ⟨true, b, s⟩ (t :: ts)
        = ((redisDel (collectKeys (t :: ts) b.tags) b.store).1,
           ⟨true,
            ⟨(redisDel (collectKeys (t :: ts) b.tags) b.store).2,
             tagsDel ((t :: ts).map (fun tg => "tag:" ++ tg)) b.tags⟩,
            { s with deletes := s.deletes
                + (redisDel (collectKeys (t :: ts) b.tags) b.store).1 }⟩) := by
      simp [CacheService.invalidateByTags, noFaults, hU, CacheService.deleteMany]
    refine ⟨?_, ?_, ?_⟩
    · intro k hk
      rw [hres]
      simp only
      rw [storeLookup_redisDel]
      simp [hk]
    · intro tg htg
      rw [hres]
      simp only
      exact tagLookup_tagsDel _ b.tags _ (List.mem_map.mpr ⟨tg, htg, rfl⟩)
    · rw [hres]
      simp only
      exact redisDel_count _ b.store (nodup_collectKeys (t :: ts) b.tags)
  · -- all queried TagSets were empty, hence (being well-formed) absent
    have hU' : collectKeys (t :: ts) b.tags = [] := List.isEmpty_iff.mp hU
    have hres : CacheService.invalidateByTags noFaults ⟨true, b, s⟩ (t :: ts)
        = (0, ⟨true, b, s⟩) := by
      simp [CacheService.invalidateByTags, noFaults, hU]
    have habsent : ∀ tg ∈ t :: ts, tagLookup b.tags ("tag:" ++ tg) = none := by
      intro tg htg
      cases hl : tagLookup b.tags ("tag:" ++ tg) with
      | none => rfl
      | some p =>
        exfalso
        have hmem := tagLookup_mem b.tags _ p hl
        have hne := hWF _ hmem
        rcases p with ⟨mem, ttl⟩
        cases mem with
        | nil => exact hne rfl
        | cons m ms =>
          have hm : m ∈ collectKeys (t :: ts) b.tags := by
            rw [mem_collectKeys]
            exact ⟨tg, htg, by simp [tagSmembers, hl]⟩
          rw [hU'] at hm
          cases hm
    refine ⟨?_, ?_, ?_⟩
    · intro k hk
      rw [hU'] at hk
      cases hk
    · intro tg htg
      rw [hres]
      exact habsent tg htg
    · rw [hres, hU']
      rfl

/-- Witness for C8 at a concrete state: one tag whose TagSet holds a
present key and an already-expired (absent) key, and one tag never used. -/
theorem c8_witness :
    (∀ e ∈ (Backend.mk [("k1", JVal.jnum 1, 60)]
        [("tag:t", ["k1", "gone"], 60)]).tags, e.2.1 ≠ [])
    ∧ (∀ k ∈ collectKeys ["t", "u"] [("tag:t", ["k1", "gone"], 60)],
        storeLookup (CacheService.invalidateByTags noFaults
            ⟨true, ⟨[("k1", JVal.jnum 1, 60)], [("tag:t", ["k1", "gone"], 60)]⟩, Stats.init⟩
            ["t", "u"]).2.backend.store k = none)
    ∧ (CacheService.invalidateByTags noFaults
        ⟨true, ⟨[("k1", JVal.jnum 1, 60)], [("tag:t", ["k1", "gone"], 60)]⟩, Stats.init⟩
        ["t", "u"]).1 = 1 := by
  have hWF : ∀ e ∈ (Backend.mk [("k1", JVal.jnum 1, 60)]
      [("tag:t", ["k1", "gone"], 60)]).tags, e.2.1 ≠ [] := by
    intro e he
    rcases List.mem_singleton.mp he with rfl
    simp
  have h := c8_invalidateByTags ⟨[("k1", JVal.jnum 1, 60)], [("tag:t", ["k1", "gone"], 60)]⟩
    Stats.init "t" ["u"] hWF
  exact ⟨hWF, h.1, by rw [h.2.2]; rfl⟩

end MF
